import Mathlib

/-! Stock and billing services: a shallow embedding.

The two Go services (`services/stock`, `services/billing`) are embedded as
pure state-passing functions.

* A Go `map[string]*T` is a `GoMap T`: an association list read with `GoMap.get`
  and written with `GoMap.set`.  The values of the Go maps are pointers, and the
  object returned by `FindByID` is the stored object itself, so a method with a
  pointer receiver called on it changes the stored object at once.  This is the
  `mutate` step of the repositories below.
* `time.Now()` and `uuid.New().String()` are inputs of the operations.
* Go's `int` is `Int`.  The only arithmetic on it is the guarded subtraction of
  `Product.Reserve` (which cannot overflow, its result lies between 0 and the
  balance) and the increment of the invoice counter, which wraps at 64 bits
  (`wrapInt`).
* The HTTP exchanges of the client of the stock service are inputs too: the client
  is a function of what each exchange came to (`ReserveExchange`, `GetExchange`).
  `GetProduct` pastes the product ID into the URL, so a lookup reaches the stock
  service through the route on which that URL arrives (`ProductRoute`).
* Two goroutines that run `ReserveStock` at once are followed statement by
  statement, in the order of a schedule (`ReserveCall.step`, `runSchedule`).
-/

namespace Korp

/-- A point in time, as returned by `time.Now()`. -/
abbrev Time := Nat

/-- A Go `map[string]*T`, as the list of its entries. -/
abbrev GoMap (α : Type) := List (String × α)

namespace GoMap

/-- The read `v, exists := m[k]`. -/
def get {α : Type} : GoMap α → String → Option α
  | [], _ => none
  | (k, v) :: rest, key => if k = key then some v else get rest key

/-- The write `m[k] = v`. -/
def set {α : Type} : GoMap α → String → α → GoMap α
  | [], key, v => [(key, v)]
  | (k, w) :: rest, key, v => if k = key then (k, v) :: rest else (k, w) :: set rest key v

/-- The builtin `delete(m, k)`. -/
def erase {α : Type} : GoMap α → String → GoMap α
  | [], _ => []
  | (k, w) :: rest, key => if k = key then erase rest key else (k, w) :: erase rest key

end GoMap

/-! ## Stock service: `services/stock/internal/domain/product.go` -/

namespace Stock

/-- The domain errors of the stock service. -/
inductive DomainError where
  | ErrProductNotFound
  | ErrInsufficientBalance
  | ErrInvalidProduct
  | ErrDuplicateCode
  | ErrInvalidQuantity
  deriving DecidableEq, Repr

/-- The text of `err.Error()`. -/
def DomainError.Error : DomainError → String
  | .ErrProductNotFound => "produto não encontrado"
  | .ErrInsufficientBalance => "saldo insuficiente"
  | .ErrInvalidProduct => "produto inválido"
  | .ErrDuplicateCode => "código de produto já existe"
  | .ErrInvalidQuantity => "quantidade inválida"

/-- The struct `Product`. -/
structure Product where
  ID : String
  Code : String
  Description : String
  Balance : Int
  CreatedAt : Time
  UpdatedAt : Time
  deriving DecidableEq, Repr

/-- The method `Validate`: `none` is the nil error. -/
def Product.Validate (p : Product) : Option DomainError :=
  if p.Code = "" then some .ErrInvalidProduct
  else if p.Description = "" then some .ErrInvalidProduct
  else if p.Balance < 0 then some .ErrInvalidProduct
  else none

/-- The method `CanReserve`. -/
def Product.CanReserve (p : Product) (quantity : Int) : Bool :=
  decide (p.Balance ≥ quantity) && decide (quantity > 0)

/-- The method `Reserve`, with pointer receiver: the error returned (`none` is nil)
and the product as the call leaves it.  `now` is the value of `time.Now()`. -/
def Product.Reserve (p : Product) (quantity : Int) (now : Time) : Option DomainError × Product :=
  if quantity ≤ 0 then (some .ErrInvalidQuantity, p)
  else if !p.CanReserve quantity then (some .ErrInsufficientBalance, p)
  else (none, { p with Balance := p.Balance - quantity, UpdatedAt := now })

/-- The struct `ReservationRequest`. -/
structure ReservationRequest where
  ProductID : String
  Quantity : Int
  deriving DecidableEq, Repr

/-- The struct `ReservationResponse`. -/
structure ReservationResponse where
  Success : Bool
  ProductID : String
  NewBalance : Int := 0
  ErrorMessage : String := ""
  deriving DecidableEq, Repr

/-! ### `services/stock/internal/repo/mem/product_mem.go` -/

/-- The struct `ProductMemRepository` (its lock apart). -/
structure ProductMemRepository where
  products : GoMap Product
  codes : GoMap String
  deriving DecidableEq, Repr

/-- The constructor `NewProductMemRepository`. -/
def NewProductMemRepository : ProductMemRepository :=
  { products := [], codes := [] }

namespace ProductMemRepository

/-- The method `Create`. -/
def Create (r : ProductMemRepository) (product : Product) : Option DomainError × ProductMemRepository :=
  match r.codes.get product.Code with
  | some _ => (some .ErrDuplicateCode, r)
  | none =>
    (none, { products := r.products.set product.ID product,
             codes := r.codes.set product.Code product.ID })

/-- The method `FindByID`. -/
def FindByID (r : ProductMemRepository) (id : String) : Except DomainError Product :=
  match r.products.get id with
  | none => .error .ErrProductNotFound
  | some product => .ok product

/-- The method `FindByCode`: `r.products[id]` of a missing id is the nil pointer. -/
def FindByCode (r : ProductMemRepository) (code : String) : Except DomainError (Option Product) :=
  match r.codes.get code with
  | none => .error .ErrProductNotFound
  | some id => .ok (r.products.get id)

/-- A write through the pointer that `FindByID id` returned: the stored object
takes the value `p`. -/
def mutate (r : ProductMemRepository) (id : String) (p : Product) : ProductMemRepository :=
  { r with products := r.products.set id p }

/-- The method `Update`.  `existing` is read from the repository as it is when
`Update` is called. -/
def Update (r : ProductMemRepository) (product : Product) : Option DomainError × ProductMemRepository :=
  match r.products.get product.ID with
  | none => (some .ErrProductNotFound, r)
  | some existing =>
    if existing.Code ≠ product.Code then
      match r.codes.get product.Code with
      | some _ => (some .ErrDuplicateCode, r)
      | none =>
        (none, { products := r.products.set product.ID product,
                 codes := (r.codes.erase existing.Code).set product.Code product.ID })
    else
      (none, { r with products := r.products.set product.ID product })

/-- The method `Delete`. -/
def Delete (r : ProductMemRepository) (id : String) : Option DomainError × ProductMemRepository :=
  match r.products.get id with
  | none => (some .ErrProductNotFound, r)
  | some product =>
    (none, { products := r.products.erase id, codes := r.codes.erase product.Code })

/-- Every entry of the product map is stored under the ID of its product, as
`Create` and `Update` store it. -/
def WF (r : ProductMemRepository) : Prop :=
  ∀ e ∈ r.products, e.2.ID = e.1

instance (r : ProductMemRepository) : Decidable r.WF :=
  inferInstanceAs (Decidable (∀ e ∈ r.products, e.2.ID = e.1))

end ProductMemRepository

/-! ### `services/stock/internal/usecase/product_service.go` -/

namespace ProductService

/-- The method `GetProduct`. -/
def GetProduct (r : ProductMemRepository) (id : String) : Except DomainError Product :=
  r.FindByID id

/-- The method `ReserveStock`: the error returned and the repository afterwards. -/
def ReserveStock (r : ProductMemRepository) (productID : String) (quantity : Int) (now : Time) :
    Option DomainError × ProductMemRepository :=
  match r.FindByID productID with
  | .error err => (some err, r)
  | .ok product =>
    match product.Reserve quantity now with
    | (some err, product') => (some err, r.mutate productID product')
    | (none, product') => (r.mutate productID product').Update product'

/-- One turn of the loop of `ReserveMultipleProducts`: the response appended for
`req` and the repository afterwards. -/
def reserveOne (r : ProductMemRepository) (req : ReservationRequest) (now : Time) :
    ReservationResponse × ProductMemRepository :=
  match r.FindByID req.ProductID with
  | .error err =>
    ({ Success := false, ProductID := req.ProductID, ErrorMessage := err.Error }, r)
  | .ok product =>
    match product.Reserve req.Quantity now with
    | (some err, product') =>
      ({ Success := false, ProductID := req.ProductID, NewBalance := product'.Balance,
         ErrorMessage := err.Error }, r.mutate req.ProductID product')
    | (none, product') =>
      match (r.mutate req.ProductID product').Update product' with
      | (some err, r') =>
        ({ Success := false, ProductID := req.ProductID, ErrorMessage := err.Error }, r')
      | (none, r') =>
        ({ Success := true, ProductID := req.ProductID, NewBalance := product'.Balance }, r')

/-- The loop of `ReserveMultipleProducts` from its `i`-th turn on: `responses` is
the slice built so far, `clock i` the time read in turn `i`. -/
def reserveLoop (clock : Nat → Time) :
    Nat → List ReservationRequest → ProductMemRepository → List ReservationResponse →
    List ReservationResponse × ProductMemRepository
  | _, [], r, responses => (responses, r)
  | i, req :: rest, r, responses =>
    reserveLoop clock (i + 1) rest (reserveOne r req (clock i)).2
      (responses ++ [(reserveOne r req (clock i)).1])

/-- The method `ReserveMultipleProducts`: the responses, the top-level error and the
repository afterwards. -/
def ReserveMultipleProducts (r : ProductMemRepository) (requests : List ReservationRequest)
    (clock : Nat → Time) :
    (List ReservationResponse × Option DomainError) × ProductMemRepository :=
  (((reserveLoop clock 0 requests r []).1, none), (reserveLoop clock 0 requests r []).2)

/-- The method `CheckAvailability`. -/
def CheckAvailability (r : ProductMemRepository) (productID : String) (quantity : Int) :
    Except DomainError Bool :=
  match r.FindByID productID with
  | .error err => .error err
  | .ok product => .ok (product.CanReserve quantity)

/-- The method `CreateProduct`.  `newID` is the value of `uuid.New().String()`,
`created` and `updated` are the two values of `time.Now()`. -/
def CreateProduct (r : ProductMemRepository) (code description : String) (balance : Int)
    (newID : String) (created updated : Time) : Except DomainError Product × ProductMemRepository :=
  match ({ ID := newID, Code := code, Description := description, Balance := balance,
           CreatedAt := created, UpdatedAt := updated } : Product).Validate with
  | some err => (.error err, r)
  | none =>
    match r.Create { ID := newID, Code := code, Description := description, Balance := balance,
                     CreatedAt := created, UpdatedAt := updated } with
    | (some err, r') => (.error err, r')
    | (none, r') =>
      (.ok { ID := newID, Code := code, Description := description, Balance := balance,
             CreatedAt := created, UpdatedAt := updated }, r')

/-- The method `UpdateProduct`.  The product that `FindByID` returns is the stored
object, so the four assignments to its fields change it in the repository (the
`mutate` step) before `Validate` and `Update` run.  `now` is the value of
`time.Now()`. -/
def UpdateProduct (r : ProductMemRepository) (id code description : String) (balance : Int)
    (now : Time) : Except DomainError Product × ProductMemRepository :=
  match r.FindByID id with
  | .error err => (.error err, r)
  | .ok product =>
    match ({ product with Code := code, Description := description, Balance := balance,
                          UpdatedAt := now } : Product).Validate with
    | some err =>
      (.error err,
        r.mutate id { product with Code := code, Description := description, Balance := balance,
                                   UpdatedAt := now })
    | none =>
      match (r.mutate id { product with Code := code, Description := description,
                                        Balance := balance, UpdatedAt := now }).Update
          { product with Code := code, Description := description, Balance := balance,
                         UpdatedAt := now } with
      | (some err, r') => (.error err, r')
      | (none, r') =>
        (.ok { product with Code := code, Description := description, Balance := balance,
                            UpdatedAt := now }, r')

end ProductService

end Stock

/-! ## Billing service: `services/billing/internal/domain/invoice.go` -/

namespace Billing

/-- The string type `InvoiceStatus`. -/
abbrev InvoiceStatus := String

/-- The constant `StatusOpen`. -/
def StatusOpen : InvoiceStatus := "ABERTA"

/-- The constant `StatusClosed`. -/
def StatusClosed : InvoiceStatus := "FECHADA"

/-- The struct `InvoiceItem`. -/
structure InvoiceItem where
  ProductID : String
  ProductCode : String := ""
  Description : String := ""
  Quantity : Int
  deriving DecidableEq, Repr

/-- The struct `Invoice`; `ClosedAt` is a pointer, `none` when nil. -/
structure Invoice where
  ID : String
  Number : Int
  Status : InvoiceStatus
  Items : List InvoiceItem
  CreatedAt : Time
  UpdatedAt : Time
  ClosedAt : Option Time := none
  deriving DecidableEq, Repr

/-- Go `error` values of the billing service: the sentinels of the domain package,
`fmt.Errorf` without `%w` (`errorf`) and `fmt.Errorf` with a message ending in `%w`
(`wrapf`, the text before the verb and the wrapped error). -/
inductive DomainError where
  | ErrInvoiceNotFound
  | ErrInvalidInvoice
  | ErrInvoiceAlreadyClosed
  | ErrInvoiceNoItems
  | ErrInvalidQuantity
  | ErrCannotPrintOpenInvoice
  | errorf (msg : String)
  | wrapf (msg : String) (err : DomainError)
  deriving DecidableEq, Repr

/-- The text of `err.Error()`. -/
def DomainError.Error : DomainError → String
  | .ErrInvoiceNotFound => "nota fiscal não encontrada"
  | .ErrInvalidInvoice => "nota fiscal inválida"
  | .ErrInvoiceAlreadyClosed => "nota fiscal já está fechada"
  | .ErrInvoiceNoItems => "nota fiscal deve ter ao menos um item"
  | .ErrInvalidQuantity => "quantidade inválida"
  | .ErrCannotPrintOpenInvoice => "não é possível imprimir nota em status diferente de ABERTA"
  | .errorf msg => msg
  | .wrapf msg err => msg ++ err.Error

/-- The loop of `Validate` over the items. -/
def validateItems : List InvoiceItem → Option DomainError
  | [] => none
  | item :: rest =>
    if item.ProductID = "" ∨ item.Quantity ≤ 0 then some .ErrInvalidQuantity
    else validateItems rest

/-- The method `Validate`: `none` is the nil error. -/
def Invoice.Validate (i : Invoice) : Option DomainError :=
  if i.Number ≤ 0 then some .ErrInvalidInvoice
  else if i.Items.length = 0 then some .ErrInvoiceNoItems
  else validateItems i.Items

/-- The method `CanBePrinted`. -/
def Invoice.CanBePrinted (i : Invoice) : Bool :=
  decide (i.Status = StatusOpen)

/-- The method `Close`, with pointer receiver: the error returned and the invoice
as the call leaves it.  `now` is the value of `time.Now()`. -/
def Invoice.Close (i : Invoice) (now : Time) : Option DomainError × Invoice :=
  if !i.CanBePrinted then (some .ErrCannotPrintOpenInvoice, i)
  else (none, { i with Status := StatusClosed, ClosedAt := some now, UpdatedAt := now })

/-- The method `IsOpen`. -/
def Invoice.IsOpen (i : Invoice) : Bool :=
  decide (i.Status = StatusOpen)

/-- The method `IsClosed`. -/
def Invoice.IsClosed (i : Invoice) : Bool :=
  decide (i.Status = StatusClosed)

/-- The struct `ProductInfo`. -/
structure ProductInfo where
  ID : String
  Code : String
  Description : String
  Balance : Int
  deriving DecidableEq, Repr

/-- The interface `StockClient`, over the state `σ` of the remote stock service.
`ReserveProducts` may change that state; `CheckAvailability` and `GetProduct` read
it. -/
structure StockClient (σ : Type) where
  ReserveProducts : List InvoiceItem → σ → Option DomainError × σ
  CheckAvailability : String → Int → σ → Except DomainError Bool
  GetProduct : String → σ → Except DomainError ProductInfo

/-! ### `services/billing/internal/repo/mem/invoice_mem.go` -/

/-- The value of a Go `int` (64 bits, two's complement) after an operation whose
exact result is `x`. -/
def wrapInt (x : Int) : Int :=
  (x + 2 ^ 63) % 2 ^ 64 - 2 ^ 63

/-- The struct `InvoiceMemRepository` (its lock apart). -/
structure InvoiceMemRepository where
  invoices : GoMap Invoice
  lastNumber : Int
  deriving DecidableEq, Repr

/-- The constructor `NewInvoiceMemRepository`. -/
def NewInvoiceMemRepository : InvoiceMemRepository :=
  { invoices := [], lastNumber := 0 }

namespace InvoiceMemRepository

/-- The method `Create`. -/
def Create (r : InvoiceMemRepository) (invoice : Invoice) :
    Option DomainError × InvoiceMemRepository :=
  (none, { r with invoices := r.invoices.set invoice.ID invoice })

/-- The method `FindByID`. -/
def FindByID (r : InvoiceMemRepository) (id : String) : Except DomainError Invoice :=
  match r.invoices.get id with
  | none => .error .ErrInvoiceNotFound
  | some invoice => .ok invoice

/-- A write through the pointer that `FindByID id` returned: the stored object
takes the value `invoice`. -/
def mutate (r : InvoiceMemRepository) (id : String) (invoice : Invoice) : InvoiceMemRepository :=
  { r with invoices := r.invoices.set id invoice }

/-- The method `Update`. -/
def Update (r : InvoiceMemRepository) (invoice : Invoice) :
    Option DomainError × InvoiceMemRepository :=
  match r.invoices.get invoice.ID with
  | none => (some .ErrInvoiceNotFound, r)
  | some _ => (none, { r with invoices := r.invoices.set invoice.ID invoice })

/-- The method `GetNextNumber`: `r.lastNumber++`, then the counter is returned. -/
def GetNextNumber (r : InvoiceMemRepository) : Except DomainError Int × InvoiceMemRepository :=
  (.ok (wrapInt (r.lastNumber + 1)), { r with lastNumber := wrapInt (r.lastNumber + 1) })

end InvoiceMemRepository

/-! ### `services/billing/internal/usecase/invoice_service.go` -/

/-- A call of a `StockClient` method, with its arguments. -/
inductive ClientCall where
  | ReserveProducts (items : List InvoiceItem)
  | CheckAvailability (productID : String) (quantity : Int)
  | GetProduct (productID : String)
  deriving DecidableEq, Repr

/-- What an `InvoiceService` works on: its repository, the state of the remote
stock service behind its client, and the calls it has made to the client, in
order. -/
structure ServiceState (σ : Type) where
  repo : InvoiceMemRepository
  remote : σ
  calls : List ClientCall

namespace InvoiceService

/-- The loop of `CreateInvoice` over the items: `enrichedItems` is the slice built
so far, `calls` the client calls made so far. -/
def enrichItems {σ : Type} (c : StockClient σ) (remote : σ) :
    List InvoiceItem → List InvoiceItem → List ClientCall →
    Except DomainError (List InvoiceItem) × List ClientCall
  | [], enrichedItems, calls => (.ok enrichedItems, calls)
  | item :: rest, enrichedItems, calls =>
    if item.Quantity ≤ 0 then (.error .ErrInvalidQuantity, calls)
    else
      match c.GetProduct item.ProductID remote with
      | .error err =>
        (.error (.wrapf ("erro ao buscar produto " ++ item.ProductID ++ ": ") err),
          calls ++ [.GetProduct item.ProductID])
      | .ok product =>
        if product.Balance < item.Quantity then
          (.error (.errorf ("produto " ++ product.Code ++ " com estoque insuficiente (disponível: "
              ++ toString product.Balance ++ ", solicitado: " ++ toString item.Quantity ++ ")")),
            calls ++ [.GetProduct item.ProductID])
        else
          enrichItems c remote rest
            (enrichedItems ++ [{ ProductID := item.ProductID, ProductCode := product.Code,
                                 Description := product.Description, Quantity := item.Quantity }])
            (calls ++ [.GetProduct item.ProductID])

/-- The method `CreateInvoice`.  `newID` is the value of `uuid.New().String()`,
`created` and `updated` are the two values of `time.Now()`. -/
def CreateInvoice {σ : Type} (c : StockClient σ) (s : ServiceState σ) (items : List InvoiceItem)
    (newID : String) (created updated : Time) : Except DomainError Invoice × ServiceState σ :=
  if items.length = 0 then (.error .ErrInvoiceNoItems, s)
  else
    match enrichItems c s.remote items [] s.calls with
    | (.error err, calls) => (.error err, { s with calls := calls })
    | (.ok enrichedItems, calls) =>
      match s.repo.GetNextNumber with
      | (.error err, repo) =>
        (.error (.wrapf "erro ao gerar número da nota: " err), { s with repo := repo, calls := calls })
      | (.ok number, repo) =>
        let invoice : Invoice :=
          { ID := newID, Number := number, Status := StatusOpen, Items := enrichedItems,
            CreatedAt := created, UpdatedAt := updated }
        match invoice.Validate with
        | some err => (.error err, { s with repo := repo, calls := calls })
        | none =>
          match repo.Create invoice with
          | (some err, repo') =>
            (.error (.wrapf "erro ao criar nota fiscal: " err), { s with repo := repo', calls := calls })
          | (none, repo') => (.ok invoice, { s with repo := repo', calls := calls })

/-- The method `GetInvoice`. -/
def GetInvoice {σ : Type} (s : ServiceState σ) (id : String) : Except DomainError Invoice :=
  s.repo.FindByID id

/-- The method `PrintInvoice`.  `now` is the value of `time.Now()` read by `Close`. -/
def PrintInvoice {σ : Type} (c : StockClient σ) (s : ServiceState σ) (id : String) (now : Time) :
    Except DomainError Invoice × ServiceState σ :=
  match s.repo.FindByID id with
  | .error err => (.error err, s)
  | .ok invoice =>
    if !invoice.CanBePrinted then (.error .ErrCannotPrintOpenInvoice, s)
    else
      match c.ReserveProducts invoice.Items s.remote with
      | (some err, remote) =>
        (.error (.wrapf "erro ao reservar produtos: " err),
          { s with remote := remote, calls := s.calls ++ [.ReserveProducts invoice.Items] })
      | (none, remote) =>
        match invoice.Close now with
        | (some err, invoice') =>
          (.error err,
            { repo := s.repo.mutate id invoice', remote := remote,
              calls := s.calls ++ [.ReserveProducts invoice.Items] })
        | (none, invoice') =>
          match (s.repo.mutate id invoice').Update invoice' with
          | (some err, repo) =>
            (.error (.wrapf "erro ao atualizar nota fiscal: " err),
              { repo := repo, remote := remote,
                calls := s.calls ++ [.ReserveProducts invoice.Items] })
          | (none, repo) =>
            (.ok invoice',
              { repo := repo, remote := remote,
                calls := s.calls ++ [.ReserveProducts invoice.Items] })

end InvoiceService

end Billing

/-! ## The client of the stock service: `services/billing/internal/client/stock_client.go` -/

namespace Billing

/-- The conversion of the invoice items to reservation requests, at the head of
`StockHTTPClient.ReserveProducts`. -/
def toRequests (items : List InvoiceItem) : List Stock.ReservationRequest :=
  items.map (fun item => { ProductID := item.ProductID, Quantity := item.Quantity })

/-- The loop at the end of `StockHTTPClient.ReserveProducts` over the decoded
responses: the error of the first response that is not a success. -/
def checkResponses : List Stock.ReservationResponse → Option DomainError
  | [] => none
  | res :: rest =>
    if !res.Success then
      some (.errorf ("falha ao reservar produto " ++ res.ProductID ++ ": " ++ res.ErrorMessage))
    else checkResponses rest

end Billing

/-! ## The HTTP client and the HTTP handler of the billing service -/

namespace Billing

/-- What the HTTP exchange of `StockHTTPClient.ReserveProducts` came to, one case
for each step of the method that can fail, in the order of the code: `json.Marshal`,
`http.NewRequest`, `httpClient.Do` (connection error, timeout), and a response with
its status code and what decoding its body as a list of responses gives. -/
inductive ReserveExchange where
  | marshalFailed (err : DomainError)
  | newRequestFailed (err : DomainError)
  | doFailed (err : DomainError)
  | response (statusCode : Nat) (body : Except DomainError (List Stock.ReservationResponse))

/-- What the HTTP exchange of `StockHTTPClient.GetProduct` came to: `http.NewRequest`,
`httpClient.Do`, and a response with its status code and what decoding its body as
a `ProductInfo` gives. -/
inductive GetExchange where
  | newRequestFailed (err : DomainError)
  | doFailed (err : DomainError)
  | response (statusCode : Nat) (body : Except DomainError ProductInfo)

namespace StockHTTPClient

/-- The method `ReserveProducts`, on the outcome of its HTTP exchange. -/
def ReserveProducts (exchange : ReserveExchange) : Option DomainError :=
  match exchange with
  | .marshalFailed err => some (.wrapf "erro ao serializar requisição: " err)
  | .newRequestFailed err => some (.wrapf "erro ao criar requisição: " err)
  | .doFailed err => some (.wrapf "erro ao comunicar com Stock Service: " err)
  | .response statusCode body =>
    if statusCode ≠ 200 then
      some (.errorf ("Stock Service retornou erro: status " ++ toString statusCode))
    else
      match body with
      | .error err => some (.wrapf "erro ao decodificar resposta: " err)
      | .ok responses => checkResponses responses

/-- The method `GetProduct`, on the outcome of its HTTP exchange. -/
def GetProduct (exchange : GetExchange) : Except DomainError ProductInfo :=
  match exchange with
  | .newRequestFailed err => .error (.wrapf "erro ao criar requisição: " err)
  | .doFailed err => .error (.wrapf "erro ao comunicar com Stock Service: " err)
  | .response statusCode body =>
    if statusCode = 404 then .error (.errorf "produto não encontrado")
    else if statusCode ≠ 200 then
      .error (.errorf ("Stock Service retornou erro: status " ++ toString statusCode))
    else
      match body with
      | .error err => .error (.wrapf "erro ao decodificar resposta: " err)
      | .ok product => .ok product

/-- The method `CheckAvailability`, on the outcome of the exchange of its
`GetProduct`. -/
def CheckAvailability (exchange : GetExchange) (quantity : Int) : Except DomainError Bool :=
  match GetProduct exchange with
  | .error err => .error err
  | .ok product => .ok (decide (product.Balance ≥ quantity))

/-- The `StockHTTPClient` as a `StockClient`: `reserveNet` and `getNet` are the
network and the stock service behind it, which turn a request and the remote state
into the outcome of the exchange (and, for a reservation, the remote state
afterwards). -/
def client {σ : Type} (reserveNet : List Stock.ReservationRequest → σ → ReserveExchange × σ)
    (getNet : String → σ → GetExchange) : StockClient σ where
  ReserveProducts := fun items remote =>
    (ReserveProducts (reserveNet (toRequests items) remote).1,
      (reserveNet (toRequests items) remote).2)
  CheckAvailability := fun productID quantity remote =>
    CheckAvailability (getNet productID remote) quantity
  GetProduct := fun productID remote => GetProduct (getNet productID remote)

end StockHTTPClient

/-- A network over which every reservation reaches the handler `ReserveStock` of the
stock service and its answer, status 200 with the responses of
`ReserveMultipleProducts`, comes back. -/
def workingNet (clock : Nat → Time) :
    List Stock.ReservationRequest → Stock.ProductMemRepository →
    ReserveExchange × Stock.ProductMemRepository :=
  fun requests r =>
    (.response 200 (.ok (Stock.ProductService.ReserveMultipleProducts r requests clock).1.1),
      (Stock.ProductService.ReserveMultipleProducts r requests clock).2)

/-- A network over which no reservation reaches the stock service: `httpClient.Do`
returns `err` and the stock is untouched. -/
def brokenNet (err : DomainError) :
    List Stock.ReservationRequest → Stock.ProductMemRepository →
    ReserveExchange × Stock.ProductMemRepository :=
  fun _ r => (.doFailed err, r)

/-- Where the request `GET baseURL/api/products/<productID>` of
`StockHTTPClient.GetProduct` arrives.  The method pastes the product ID into the URL
as it is, so the stock service sees what `net/url` and its router make of that URL:
the route `/{id}` with some `id`, the route `/` that lists the products, no route,
or nothing at all because `http.NewRequest` rejects the URL. -/
inductive ProductRoute where
  | product (id : String)
  | list
  | unrouted
  | rejected (err : DomainError)

/-- The lookups over a working network.  `route` is where the URL made with each
product ID arrives.  On the route `/{id}` the handler `GetProduct` of the stock
service answers 404 when the product is not found and 200 with the product
otherwise; the route `/` answers 200 with the list of the products, which does not
decode as a `ProductInfo`; without a route the router answers 404.  (The body of an
answer 404 has no field of `ProductInfo`.) -/
def workingGetNet (route : String → ProductRoute) :
    String → Stock.ProductMemRepository → GetExchange :=
  fun productID r =>
    match route productID with
    | .rejected err => .newRequestFailed err
    | .unrouted => .response 404 (.ok { ID := "", Code := "", Description := "", Balance := 0 })
    | .list =>
      .response 200
        (.error (.errorf "json: cannot unmarshal array into Go value of type domain.ProductInfo"))
    | .product id =>
      match Stock.ProductService.GetProduct r id with
      | .error .ErrProductNotFound =>
        .response 404 (.ok { ID := "", Code := "", Description := "", Balance := 0 })
      | .error _ =>
        .response 500 (.ok { ID := "", Code := "", Description := "", Balance := 0 })
      | .ok p =>
        .response 200
          (.ok { ID := p.ID, Code := p.Code, Description := p.Description, Balance := p.Balance })

/-- The `StockHTTPClient` in front of a stock service that it always reaches:
`ReserveProducts` reaches `ReserveMultipleProducts` (through the handler
`ReserveStock`, status 200 and the responses, the product IDs travelling in the JSON
body), `GetProduct` and `CheckAvailability` go through the URL made with the product
ID (`workingGetNet route`).  `clock` is the clock of the stock service. -/
def directClient (route : String → ProductRoute) (clock : Nat → Time) :
    StockClient Stock.ProductMemRepository where
  ReserveProducts := fun items r =>
    (checkResponses (Stock.ProductService.ReserveMultipleProducts r (toRequests items) clock).1.1,
      (Stock.ProductService.ReserveMultipleProducts r (toRequests items) clock).2)
  GetProduct := fun productID r =>
    StockHTTPClient.GetProduct (workingGetNet route productID r)
  CheckAvailability := fun productID quantity r =>
    StockHTTPClient.CheckAvailability (workingGetNet route productID r) quantity

/-! ### `services/billing/internal/transport/http/handler.go` -/

/-- The struct `ErrorResponse`. -/
structure ErrorResponse where
  Error : String
  Message : String
  deriving DecidableEq, Repr

/-- The struct `PrintResponse`. -/
structure PrintResponse where
  Success : Bool
  Message : String
  Invoice : Option Invoice
  deriving DecidableEq, Repr

/-- The value that a handler encodes as the JSON body of its response. -/
inductive ResponseBody where
  | error (e : ErrorResponse)
  | print (p : PrintResponse)
  deriving DecidableEq, Repr

/-- What a handler writes: the status code and the body. -/
structure HandlerResponse where
  status : Nat
  body : ResponseBody
  deriving DecidableEq, Repr

/-- The helper `respondError`. -/
def respondError (status : Nat) (error message : String) : HandlerResponse :=
  { status := status, body := .error { Error := error, Message := message } }

namespace Handler

/-- The handler `PrintInvoice`: the response written and the state of the service
afterwards.  The `switch err` compares `err` with the two sentinels; every other
error takes the `default` branch. -/
def PrintInvoice {σ : Type} (c : StockClient σ) (s : ServiceState σ) (id : String) (now : Time) :
    HandlerResponse × ServiceState σ :=
  match InvoiceService.PrintInvoice c s id now with
  | (.error err, s') =>
    (match err with
      | .ErrInvoiceNotFound => respondError 404 "Nota fiscal não encontrada" err.Error
      | .ErrCannotPrintOpenInvoice => respondError 400 "Nota fiscal já está fechada" err.Error
      | _ =>
        respondError 503 "Falha na comunicação com o serviço de estoque"
          "Não foi possível atualizar o estoque. Tente novamente.",
      s')
  | (.ok invoice, s') =>
    ({ status := 200,
       body := .print { Success := true, Message := "Nota fiscal impressa com sucesso",
                        Invoice := some invoice } }, s')

end Handler

end Billing

/-! ## The words of the specification

The quantities that the statements on the batch reservation speak of. -/

namespace Stock

/-- What the outcome `resp` of the item `req` takes from product `pid`: the
quantity of the item when the item is for `pid` and its outcome is a success, and
nothing otherwise. -/
def debitOf (req : ReservationRequest) (resp : ReservationResponse) (pid : String) : Int :=
  if req.ProductID = pid ∧ resp.Success = true then req.Quantity else 0

/-- The sum of the quantities of the successful items of product `pid`, over the
items `reqs` and their outcomes `resps`. -/
def debited : List ReservationRequest → List ReservationResponse → String → Int
  | req :: reqs, resp :: resps, pid => debitOf req resp pid + debited reqs resps pid
  | _, _, _ => 0

/-- The balance that the repository holds for product `pid`, when it holds the
product. -/
def balanceOf (r : ProductMemRepository) (pid : String) : Option Int :=
  (r.products.get pid).map (fun p => p.Balance)

end Stock

namespace Billing

/-- The number of `ReserveProducts` calls in a list of client calls. -/
def reserveCalls : List ClientCall → Nat
  | [] => 0
  | .ReserveProducts _ :: rest => reserveCalls rest + 1
  | _ :: rest => reserveCalls rest

end Billing

namespace Billing

/-- An item passes the checks of the creation loop: its quantity is positive, the
lookup of its product succeeds and the quantity is at most the balance that the
lookup returned. -/
def itemAccepted {σ : Type} (c : StockClient σ) (remote : σ) (item : InvoiceItem) : Prop :=
  0 < item.Quantity ∧
    ∃ product, c.GetProduct item.ProductID remote = .ok product ∧ item.Quantity ≤ product.Balance

/-- The line item of an accepted item: its product ID and quantity, with the code
and description that the lookup returned. -/
def snapshot {σ : Type} (c : StockClient σ) (remote : σ) (item : InvoiceItem) : InvoiceItem :=
  match c.GetProduct item.ProductID remote with
  | .ok product =>
    { ProductID := item.ProductID, ProductCode := product.Code,
      Description := product.Description, Quantity := item.Quantity }
  | .error _ => item

/-- One `CreateInvoice` call of a sequence: its items, the values of
`uuid.New().String()` and `time.Now()` it reads, and the state of the remote stock
service while it runs. -/
structure CreateCall (σ : Type) where
  items : List InvoiceItem
  newID : String
  created : Time
  updated : Time
  remote : σ

/-- A sequence of `CreateInvoice` calls on one repository: the result of each call,
in order, and the repository at the end. -/
def createAll {σ : Type} (c : StockClient σ) :
    InvoiceMemRepository → List (CreateCall σ) →
    List (Except DomainError Invoice) × InvoiceMemRepository
  | repo, [] => ([], repo)
  | repo, call :: rest =>
    ((InvoiceService.CreateInvoice c { repo := repo, remote := call.remote, calls := [] }
        call.items call.newID call.created call.updated).1 ::
      (createAll c (InvoiceService.CreateInvoice c
        { repo := repo, remote := call.remote, calls := [] }
        call.items call.newID call.created call.updated).2.repo rest).1,
     (createAll c (InvoiceService.CreateInvoice c
        { repo := repo, remote := call.remote, calls := [] }
        call.items call.newID call.created call.updated).2.repo rest).2)

/-- The numbers of the invoices that a sequence of calls created, in the order of
the calls. -/
def assignedNumbers : List (Except DomainError Invoice) → List Int
  | [] => []
  | .ok invoice :: rest => invoice.Number :: assignedNumbers rest
  | .error _ :: rest => assignedNumbers rest

end Billing

namespace Billing

/-- Every stored invoice has a number between 1 and the counter. -/
def numbersBounded (r : InvoiceMemRepository) : Prop :=
  ∀ id inv, r.invoices.get id = some inv → 1 ≤ inv.Number ∧ inv.Number ≤ r.lastNumber

/-- No two invoices in the store share a number. -/
def numbersDistinct (r : InvoiceMemRepository) : Prop :=
  ∀ id1 id2 inv1 inv2, id1 ≠ id2 → r.invoices.get id1 = some inv1 →
    r.invoices.get id2 = some inv2 → inv1.Number ≠ inv2.Number

end Billing

namespace Billing

/-- The reservation call failed in transport: the exchange did not come to a
response of status 200 with a body that decodes as a list of responses. -/
def transportFailure : ReserveExchange → Prop
  | .response 200 (.ok _) => False
  | _ => True

end Billing

/-! ## Sample data -/

namespace Billing

/-- The path of the URL made with a product ID, as far as the ID reaches into it:
the characters before the first `?` or `#`, where the query or the fragment of the
URL starts. -/
def cutPath : List Char → List Char
  | [] => []
  | ch :: rest => if ch = '?' ∨ ch = '#' then [] else ch :: cutPath rest

/-- Where the URLs made with the product IDs of the samples arrive (IDs of letters,
digits and the characters `-`, `=`, `?`, `#`, `/`): with an empty path on the route
`/`, with a `/` in the path on no route, and otherwise on the route `/{id}` with the
path as `id`. -/
def sampleRoute (productID : String) : ProductRoute :=
  if cutPath productID.data = [] then .list
  else if '/' ∈ cutPath productID.data then .unrouted
  else .product (String.mk (cutPath productID.data))

end Billing

namespace Stock

/-- A repository with product `a` of balance 5 and product `b` of balance 0. -/
def sampleRepo : ProductMemRepository :=
  { products := [("a", ⟨"a", "A", "first", 5, 0, 0⟩), ("b", ⟨"b", "B", "second", 0, 0, 0⟩)],
    codes := [("A", "a"), ("B", "b")] }

/-- A batch with successes and failures of every kind on `sampleRepo`. -/
def sampleBatch : List ReservationRequest :=
  [⟨"a", 2⟩, ⟨"b", 1⟩, ⟨"a", 4⟩, ⟨"a", 3⟩, ⟨"z", 1⟩, ⟨"a", 0⟩]

end Stock

namespace Billing

/-- An open invoice for 4 units of product `a`. -/
def sampleInvoice : Invoice :=
  { ID := "inv-1", Number := 1, Status := StatusOpen,
    Items := [{ ProductID := "a", ProductCode := "A", Description := "first", Quantity := 4 }],
    CreatedAt := 10, UpdatedAt := 10 }

/-- An open invoice for 9 units of product `a`, more than `sampleRepo` holds. -/
def sampleLargeInvoice : Invoice :=
  { ID := "inv-2", Number := 2, Status := StatusOpen,
    Items := [{ ProductID := "a", ProductCode := "A", Description := "first", Quantity := 9 }],
    CreatedAt := 11, UpdatedAt := 11 }

/-- A closed invoice. -/
def sampleClosedInvoice : Invoice :=
  { ID := "inv-3", Number := 3, Status := StatusClosed,
    Items := [{ ProductID := "a", ProductCode := "A", Description := "first", Quantity := 1 }],
    CreatedAt := 12, UpdatedAt := 13, ClosedAt := some 13 }

/-- A billing service holding the three sample invoices, in front of `sampleRepo`. -/
def sampleState : ServiceState Stock.ProductMemRepository :=
  { repo := { invoices := [("inv-1", sampleInvoice), ("inv-2", sampleLargeInvoice),
                           ("inv-3", sampleClosedInvoice)],
              lastNumber := 3 },
    remote := Stock.sampleRepo,
    calls := [] }

/-- The clock of the sample stock service. -/
def sampleClock : Nat → Time := fun i => 100 + i

end Billing

namespace Billing

/-- Three `CreateInvoice` calls in front of `sampleRepo`: the second asks for more
than the stock holds, the third reuses no ID. -/
def sampleCalls : List (CreateCall Stock.ProductMemRepository) :=
  [{ items := [{ ProductID := "a", Quantity := 4 }], newID := "n1", created := 1, updated := 1,
     remote := Stock.sampleRepo },
   { items := [{ ProductID := "a", Quantity := 6 }], newID := "n2", created := 2, updated := 2,
     remote := Stock.sampleRepo },
   { items := [{ ProductID := "a", Quantity := 5 }], newID := "n3", created := 3, updated := 3,
     remote := Stock.sampleRepo }]

end Billing

namespace Billing

/-- A test double of the stock client that knows every product ID, the empty one
included, with balance 5, and accepts every reservation. -/
def stubClient : StockClient Unit where
  ReserveProducts := fun _ remote => (none, remote)
  CheckAvailability := fun _ quantity _ => .ok (decide ((5 : Int) ≥ quantity))
  GetProduct := fun productID _ =>
    .ok { ID := productID, Code := "X", Description := "any", Balance := 5 }

/-- A stock repository with the one product `p`, of balance 2. -/
def scenarioRepo : Stock.ProductMemRepository :=
  { products := [("p", ⟨"p", "P", "scarce", 2, 0, 0⟩)], codes := [("P", "p")] }

/-- A billing service with no invoice yet, in front of `scenarioRepo`. -/
def scenarioState : ServiceState Stock.ProductMemRepository :=
  { repo := NewInvoiceMemRepository, remote := scenarioRepo, calls := [] }

end Billing

namespace Billing

/-- A stock repository with the one product `p`, of balance 10. -/
def tenRepo : Stock.ProductMemRepository :=
  { products := [("p", ⟨"p", "P", "plenty", 10, 0, 0⟩)], codes := [("P", "p")] }

/-- A billing service with no invoice yet, in front of `tenRepo`. -/
def tenState : ServiceState Stock.ProductMemRepository :=
  { repo := NewInvoiceMemRepository, remote := tenRepo, calls := [] }

end Billing

namespace Billing

/-- An open invoice for 2 units of product `a` and 1 unit of product `b`. -/
def samplePairInvoice : Invoice :=
  { ID := "inv-4", Number := 4, Status := StatusOpen,
    Items := [{ ProductID := "a", ProductCode := "A", Description := "first", Quantity := 2 },
              { ProductID := "b", ProductCode := "B", Description := "second", Quantity := 1 }],
    CreatedAt := 14, UpdatedAt := 14 }

/-- A billing service holding `samplePairInvoice`, in front of `sampleRepo`, where
product `a` has balance 5 and product `b` balance 0. -/
def pairState : ServiceState Stock.ProductMemRepository :=
  { repo := { invoices := [("inv-4", samplePairInvoice)], lastNumber := 4 },
    remote := Stock.sampleRepo,
    calls := [] }

end Billing

/-! ## Concurrent reservations

`ReserveStock` takes the lock of the repository inside `FindByID` and inside
`Update` only; the statements of `Reserve` in between run on the stored product
without it.  A goroutine that runs `ReserveStock` is followed here statement by
statement, and two goroutines take their steps in the order of a schedule. -/

namespace Stock

/-- Where a goroutine that runs `ReserveStock` stands: before `FindByID`; holding
the stored product, before the two checks of `Reserve`; past the checks, before
`p.Balance -= quantity`; past the debit, before `p.UpdatedAt = time.Now()` and
`repo.Update`; returned, with its error. -/
inductive ReservePoint where
  | start
  | found
  | checked
  | debited
  | returned (err : Option DomainError)
  deriving DecidableEq, Repr

/-- A goroutine that runs `ReserveStock productID quantity`, and where it stands. -/
structure ReserveCall where
  productID : String
  quantity : Int
  now : Time
  point : ReservePoint
  deriving DecidableEq, Repr

/-- The next step of a goroutine on the shared repository.  The goroutine holds the
pointer that `FindByID` returned; as long as no product is deleted, the object
behind it is the entry of the map under `productID`. -/
def ReserveCall.step (g : ReserveCall) (r : ProductMemRepository) :
    ReserveCall × ProductMemRepository :=
  match g.point with
  | .start =>
    match r.FindByID g.productID with
    | .error err => ({ g with point := .returned (some err) }, r)
    | .ok _ => ({ g with point := .found }, r)
  | .found =>
    match r.products.get g.productID with
    | none => (g, r)
    | some p =>
      if g.quantity ≤ 0 then ({ g with point := .returned (some .ErrInvalidQuantity) }, r)
      else if !p.CanReserve g.quantity then
        ({ g with point := .returned (some .ErrInsufficientBalance) }, r)
      else ({ g with point := .checked }, r)
  | .checked =>
    match r.products.get g.productID with
    | none => (g, r)
    | some p =>
      ({ g with point := .debited },
        r.mutate g.productID { p with Balance := p.Balance - g.quantity })
  | .debited =>
    match r.products.get g.productID with
    | none => (g, r)
    | some p =>
      ({ g with
          point := ReservePoint.returned ((r.mutate g.productID { p with UpdatedAt := g.now }).Update
            { p with UpdatedAt := g.now }).1 },
        ((r.mutate g.productID { p with UpdatedAt := g.now }).Update
          { p with UpdatedAt := g.now }).2)
  | .returned _ => (g, r)

/-- Two goroutines and the repository they share. -/
structure Race where
  first : ReserveCall
  second : ReserveCall
  repo : ProductMemRepository
  deriving DecidableEq, Repr

/-- The steps of two goroutines in the order of a schedule: `false` lets the first
goroutine take its next step, `true` the second. -/
def runSchedule : List Bool → Race → Race
  | [], w => w
  | false :: rest, w =>
    runSchedule rest { w with first := (w.first.step w.repo).1, repo := (w.first.step w.repo).2 }
  | true :: rest, w =>
    runSchedule rest { w with second := (w.second.step w.repo).1, repo := (w.second.step w.repo).2 }

/-- Two calls of `ReserveStock` about to start on `sampleRepo`, where product `a`
has balance 5: one for 3 units and one for 4 units of `a`. -/
def sampleRace : Race :=
  { first := { productID := "a", quantity := 3, now := 1, point := .start },
    second := { productID := "a", quantity := 4, now := 2, point := .start },
    repo := sampleRepo }

/-- The schedule in which both goroutines pass the checks of `Reserve` before either
debits. -/
def racySchedule : List Bool :=
  [false, false, true, true, false, true, false, true]

end Stock

/-! ## Theorems -/

namespace GoMap

theorem get_set_self {α : Type} (m : GoMap α) (k : String) (v : α) :
    (m.set k v).get k = some v := by
  induction m with
  | nil => simp [set, get]
  | cons e rest ih =>
    obtain ⟨k0, w⟩ := e
    by_cases h : k0 = k
    · simp [set, get, h]
    · simp [set, get, h, ih]

theorem get_set_ne {α : Type} (m : GoMap α) (k k' : String) (v : α) (h : k' ≠ k) :
    (m.set k v).get k' = m.get k' := by
  induction m with
  | nil =>
    have h' : ¬ k = k' := fun e => h e.symm
    simp [set, get, h']
  | cons e rest ih =>
    obtain ⟨k0, w⟩ := e
    by_cases h0 : k0 = k
    · subst h0
      have h' : ¬ k0 = k' := fun e => h e.symm
      simp [set, get, h']
    · by_cases h1 : k0 = k'
      · subst h1
        simp [set, get, h0]
      · simp [set, get, h0, h1, ih]

theorem set_get_same {α : Type} (m : GoMap α) (k : String) (v : α) (h : m.get k = some v) :
    m.set k v = m := by
  induction m with
  | nil => simp [get] at h
  | cons e rest ih =>
    obtain ⟨k0, w⟩ := e
    by_cases h0 : k0 = k
    · simp [get, h0] at h
      simp [set, h0, h]
    · simp [get, h0] at h
      simp [set, h0, ih h]

theorem mem_of_get {α : Type} (m : GoMap α) (k : String) (v : α) (h : m.get k = some v) :
    (k, v) ∈ m := by
  induction m with
  | nil => simp [get] at h
  | cons e rest ih =>
    obtain ⟨k0, w⟩ := e
    by_cases h0 : k0 = k
    · simp [get, h0] at h
      simp [h0, h]
    · simp [get, h0] at h
      exact List.mem_cons_of_mem _ (ih h)

theorem mem_set {α : Type} (m : GoMap α) (k : String) (v : α) (e : String × α)
    (h : e ∈ m.set k v) : e ∈ m ∨ e = (k, v) := by
  induction m with
  | nil =>
    simp [set] at h
    exact Or.inr h
  | cons e0 rest ih =>
    obtain ⟨k0, w⟩ := e0
    by_cases h0 : k0 = k
    · simp only [set, h0, if_true, List.mem_cons] at h
      rcases h with h | h
      · exact Or.inr h
      · exact Or.inl (List.mem_cons_of_mem _ h)
    · simp only [set, h0, if_false, List.mem_cons] at h
      rcases h with h | h
      · exact Or.inl (by simp [h])
      · rcases ih h with h' | h'
        · exact Or.inl (List.mem_cons_of_mem _ h')
        · exact Or.inr h'

end GoMap

namespace Stock

theorem Reserve_ok (p : Product) (q : Int) (now : Time) (hq : 0 < q) (hb : q ≤ p.Balance) :
    p.Reserve q now = (none, { p with Balance := p.Balance - q, UpdatedAt := now }) := by
  have h1 : ¬ q ≤ 0 := not_le.mpr hq
  simp [Product.Reserve, Product.CanReserve, h1, hq, hb]

theorem Reserve_invalid (p : Product) (q : Int) (now : Time) (hq : q ≤ 0) :
    p.Reserve q now = (some .ErrInvalidQuantity, p) := by
  simp [Product.Reserve, hq]

theorem Reserve_insufficient (p : Product) (q : Int) (now : Time) (hq : 0 < q)
    (hb : p.Balance < q) : p.Reserve q now = (some .ErrInsufficientBalance, p) := by
  have h1 : ¬ q ≤ 0 := not_le.mpr hq
  have h2 : ¬ q ≤ p.Balance := not_le.mpr hb
  simp [Product.Reserve, Product.CanReserve, h1, h2]

namespace ProductMemRepository

theorem FindByID_mutate_self (r : ProductMemRepository) (id : String) (p : Product) :
    (r.mutate id p).FindByID id = .ok p := by
  simp [FindByID, mutate, GoMap.get_set_self]

theorem mutate_same (r : ProductMemRepository) (id : String) (p : Product)
    (h : r.products.get id = some p) : r.mutate id p = r := by
  simp [mutate, GoMap.set_get_same _ _ _ h]

/-- `Update` of the object that the repository already holds under its ID (the
pointer that `FindByID` returned) succeeds and changes nothing. -/
theorem Update_stored (r : ProductMemRepository) (p : Product)
    (h : r.products.get p.ID = some p) : r.Update p = (none, r) := by
  simp [Update, h, GoMap.set_get_same _ _ _ h]

end ProductMemRepository

/-- `ReserveStock` on a product stored under its ID, with a quantity that the
balance covers. -/
theorem ReserveStock_ok (r : ProductMemRepository) (id : String) (p : Product) (q : Int)
    (now : Time) (hp : r.products.get id = some p) (hid : p.ID = id) (hq : 0 < q)
    (hb : q ≤ p.Balance) :
    ProductService.ReserveStock r id q now =
      (none, r.mutate id { p with Balance := p.Balance - q, UpdatedAt := now }) := by
  have hf : r.FindByID id = .ok p := by simp [ProductMemRepository.FindByID, hp]
  simp only [ProductService.ReserveStock, hf, Reserve_ok p q now hq hb]
  apply ProductMemRepository.Update_stored
  simp [ProductMemRepository.mutate, hid, GoMap.get_set_self]

/-- C1: for a product with balance `b` and a quantity `0 < q ≤ b`, `Reserve`
returns no error and leaves the product with balance `b - q` (its other fields kept,
`UpdatedAt` refreshed), which is at least 0 and strictly below `b`; and
`ReserveStock` on a repository that stores the product under its ID returns no
error, after which `FindByID` gives the product with balance `b - q`, every other
product and the code index being unchanged. -/
theorem C1_reserve_debits (p : Product) (q : Int) (now : Time)
    (hq : 0 < q) (hb : q ≤ p.Balance) :
    (p.Reserve q now).1 = none ∧
    (p.Reserve q now).2 = { p with Balance := p.Balance - q, UpdatedAt := now } ∧
    (p.Reserve q now).2.Balance = p.Balance - q ∧
    0 ≤ (p.Reserve q now).2.Balance ∧
    (p.Reserve q now).2.Balance < p.Balance ∧
    ∀ (r : ProductMemRepository) (id : String),
      r.products.get id = some p → p.ID = id →
        (ProductService.ReserveStock r id q now).1 = none ∧
        (ProductService.ReserveStock r id q now).2.FindByID id =
          .ok { p with Balance := p.Balance - q, UpdatedAt := now } ∧
        (ProductService.ReserveStock r id q now).2.codes = r.codes ∧
        ∀ id', id' ≠ id →
          (ProductService.ReserveStock r id q now).2.products.get id' = r.products.get id' := by
  rw [Reserve_ok p q now hq hb]
  refine ⟨rfl, rfl, rfl, ?_, ?_, ?_⟩
  · show 0 ≤ p.Balance - q
    omega
  · show p.Balance - q < p.Balance
    omega
  · intro r id hp hid
    rw [ReserveStock_ok r id p q now hp hid hq hb]
    refine ⟨rfl, ProductMemRepository.FindByID_mutate_self _ _ _, rfl, ?_⟩
    intro id' hne
    simp [ProductMemRepository.mutate, GoMap.get_set_ne _ _ _ _ hne]

/-- C1 at a product with balance 10 and the quantity 4. -/
theorem C1_reserve_debits_witness :
    (0 : Int) < 4 ∧ (4 : Int) ≤ (Product.mk "p1" "A" "a" 10 0 0).Balance ∧
    ((Product.mk "p1" "A" "a" 10 0 0).Reserve 4 7).2.Balance = 6 :=
  ⟨by decide, by decide,
    (C1_reserve_debits (Product.mk "p1" "A" "a" 10 0 0) 4 7 (by decide) (by decide)).2.2.1⟩

/-- C2: `Reserve` returns an error exactly when `q ≤ 0` or `q > balance`; the error
is `ErrInvalidQuantity` exactly when `q ≤ 0` and `ErrInsufficientBalance` exactly
when `q > 0` and `q > balance`; and whenever it returns an error the product is
left as it was (its balance included). -/
theorem C2_reserve_fails_exactly (p : Product) (q : Int) (now : Time) :
    ((p.Reserve q now).1 ≠ none ↔ (q ≤ 0 ∨ q > p.Balance)) ∧
    ((p.Reserve q now).1 = some .ErrInvalidQuantity ↔ q ≤ 0) ∧
    ((p.Reserve q now).1 = some .ErrInsufficientBalance ↔ (q > 0 ∧ q > p.Balance)) ∧
    ((p.Reserve q now).1 ≠ none →
      (p.Reserve q now).2 = p ∧ (p.Reserve q now).2.Balance = p.Balance) := by
  rcases le_or_lt q 0 with hq | hq
  · rw [Reserve_invalid p q now hq]
    refine ⟨?_, ?_, ?_, ?_⟩
    · simp [hq]
    · simp [hq]
    · simp
      intro h
      omega
    · intro _
      exact ⟨rfl, rfl⟩
  · rcases le_or_lt q p.Balance with hb | hb
    · rw [Reserve_ok p q now hq hb]
      refine ⟨?_, ?_, ?_, ?_⟩
      · simp
        omega
      · simp
        omega
      · simp
        omega
      · intro h
        exact absurd rfl h
    · rw [Reserve_insufficient p q now hq hb]
      refine ⟨?_, ?_, ?_, ?_⟩
      · simp
        exact Or.inr hb
      · simp
        omega
      · simp
        exact ⟨hq, hb⟩
      · intro _
        exact ⟨rfl, rfl⟩

/-! ### The batch reservation -/

theorem reserveOne_ProductID (r : ProductMemRepository) (req : ReservationRequest) (now : Time) :
    (ProductService.reserveOne r req now).1.ProductID = req.ProductID := by
  unfold ProductService.reserveOne
  split
  · rfl
  · split
    · rfl
    · split <;> rfl

theorem reserveLoop_fst (clock : Nat → Time) (reqs : List ReservationRequest) :
    ∀ (i : Nat) (r : ProductMemRepository) (acc : List ReservationResponse),
      (ProductService.reserveLoop clock i reqs r acc).1 =
        acc ++ (ProductService.reserveLoop clock i reqs r []).1 := by
  induction reqs with
  | nil => intro i r acc; simp [ProductService.reserveLoop]
  | cons req rest ih =>
    intro i r acc
    simp only [ProductService.reserveLoop]
    rw [ih (i + 1) _ (acc ++ _), ih (i + 1) _ ([] ++ _)]
    simp

theorem reserveLoop_snd (clock : Nat → Time) (reqs : List ReservationRequest) :
    ∀ (i : Nat) (r : ProductMemRepository) (acc : List ReservationResponse),
      (ProductService.reserveLoop clock i reqs r acc).2 =
        (ProductService.reserveLoop clock i reqs r []).2 := by
  induction reqs with
  | nil => intro i r acc; simp [ProductService.reserveLoop]
  | cons req rest ih =>
    intro i r acc
    simp only [ProductService.reserveLoop]
    rw [ih (i + 1) _ (acc ++ _), ih (i + 1) _ ([] ++ _)]

theorem reserveLoop_cons_fst (clock : Nat → Time) (i : Nat) (req : ReservationRequest)
    (rest : List ReservationRequest) (r : ProductMemRepository) :
    (ProductService.reserveLoop clock i (req :: rest) r []).1 =
      (ProductService.reserveOne r req (clock i)).1 ::
        (ProductService.reserveLoop clock (i + 1) rest
          (ProductService.reserveOne r req (clock i)).2 []).1 := by
  simp only [ProductService.reserveLoop]
  rw [reserveLoop_fst]
  simp

theorem reserveLoop_cons_snd (clock : Nat → Time) (i : Nat) (req : ReservationRequest)
    (rest : List ReservationRequest) (r : ProductMemRepository) :
    (ProductService.reserveLoop clock i (req :: rest) r []).2 =
      (ProductService.reserveLoop clock (i + 1) rest
        (ProductService.reserveOne r req (clock i)).2 []).2 := by
  simp only [ProductService.reserveLoop]
  rw [reserveLoop_snd]

theorem reserveLoop_ids (clock : Nat → Time) (reqs : List ReservationRequest) :
    ∀ (i : Nat) (r : ProductMemRepository),
      (ProductService.reserveLoop clock i reqs r []).1.map (fun resp => resp.ProductID) =
        reqs.map (fun req => req.ProductID) := by
  induction reqs with
  | nil => intro i r; simp [ProductService.reserveLoop]
  | cons req rest ih =>
    intro i r
    rw [reserveLoop_cons_fst]
    simp [reserveOne_ProductID, ih]

theorem reserveLoop_length (clock : Nat → Time) (reqs : List ReservationRequest)
    (i : Nat) (r : ProductMemRepository) :
    (ProductService.reserveLoop clock i reqs r []).1.length = reqs.length := by
  have h := congrArg List.length (reserveLoop_ids clock reqs i r)
  simpa using h

/-- C3: `ReserveMultipleProducts` on `N` requests returns a nil top-level error and
exactly `N` responses, and the `i`-th response carries the product ID of the `i`-th
request, for every repository (so for every mixture of successes and failures). -/
theorem C3_one_response_per_request (r : ProductMemRepository)
    (requests : List ReservationRequest) (clock : Nat → Time) :
    (ProductService.ReserveMultipleProducts r requests clock).1.2 = none ∧
    (ProductService.ReserveMultipleProducts r requests clock).1.1.length = requests.length ∧
    (ProductService.ReserveMultipleProducts r requests clock).1.1.map (fun resp => resp.ProductID)
      = requests.map (fun req => req.ProductID) ∧
    ∀ (i : Nat) (req : ReservationRequest), requests[i]? = some req →
      ∃ resp, (ProductService.ReserveMultipleProducts r requests clock).1.1[i]? = some resp ∧
        resp.ProductID = req.ProductID := by
  refine ⟨rfl, reserveLoop_length clock requests 0 r, reserveLoop_ids clock requests 0 r, ?_⟩
  intro i req hreq
  have hids := reserveLoop_ids clock requests 0 r
  have hi : (requests.map (fun req => req.ProductID))[i]? = some req.ProductID := by
    simp [List.getElem?_map, hreq]
  rw [← hids, List.getElem?_map] at hi
  simp only [ProductService.ReserveMultipleProducts]
  cases hresp : (ProductService.reserveLoop clock 0 requests r []).1[i]? with
  | none => simp [hresp] at hi
  | some resp =>
    simp [hresp] at hi
    exact ⟨resp, rfl, hi⟩

/-! ### The batch reservation, item by item -/

namespace ProductMemRepository

theorem WF_mutate (r : ProductMemRepository) (id : String) (p : Product) (hwf : r.WF)
    (hid : p.ID = id) : (r.mutate id p).WF := by
  intro e he
  rcases GoMap.mem_set _ _ _ _ he with h | h
  · exact hwf e h
  · rw [h]
    exact hid

theorem WF_get (r : ProductMemRepository) (id : String) (p : Product) (hwf : r.WF)
    (h : r.products.get id = some p) : p.ID = id :=
  hwf (id, p) (GoMap.mem_of_get _ _ _ h)

end ProductMemRepository

theorem reserveOne_notfound (r : ProductMemRepository) (req : ReservationRequest) (now : Time)
    (h : r.products.get req.ProductID = none) :
    ProductService.reserveOne r req now =
      ({ Success := false, ProductID := req.ProductID,
         ErrorMessage := DomainError.ErrProductNotFound.Error }, r) := by
  simp [ProductService.reserveOne, ProductMemRepository.FindByID, h]

theorem reserveOne_ok (r : ProductMemRepository) (req : ReservationRequest) (now : Time)
    (p : Product) (hwf : r.WF) (h : r.products.get req.ProductID = some p)
    (hq : 0 < req.Quantity) (hb : req.Quantity ≤ p.Balance) :
    ProductService.reserveOne r req now =
      ({ Success := true, ProductID := req.ProductID, NewBalance := p.Balance - req.Quantity },
        r.mutate req.ProductID { p with Balance := p.Balance - req.Quantity, UpdatedAt := now }) := by
  have hid : p.ID = req.ProductID := ProductMemRepository.WF_get r _ p hwf h
  have hf : r.FindByID req.ProductID = .ok p := by simp [ProductMemRepository.FindByID, h]
  have hu : (r.mutate req.ProductID
      { p with Balance := p.Balance - req.Quantity, UpdatedAt := now }).Update
      { p with Balance := p.Balance - req.Quantity, UpdatedAt := now } =
      (none, r.mutate req.ProductID
        { p with Balance := p.Balance - req.Quantity, UpdatedAt := now }) := by
    apply ProductMemRepository.Update_stored
    simp [ProductMemRepository.mutate, hid, GoMap.get_set_self]
  simp only [ProductService.reserveOne, hf, Reserve_ok p req.Quantity now hq hb, hu]

theorem reserveOne_denied (r : ProductMemRepository) (req : ReservationRequest) (now : Time)
    (p : Product) (h : r.products.get req.ProductID = some p)
    (hq : ¬ (0 < req.Quantity ∧ req.Quantity ≤ p.Balance)) :
    (ProductService.reserveOne r req now).1.Success = false ∧
    (ProductService.reserveOne r req now).2 = r := by
  have hf : r.FindByID req.ProductID = .ok p := by simp [ProductMemRepository.FindByID, h]
  rcases le_or_lt req.Quantity 0 with h0 | h0
  · simp only [ProductService.reserveOne, hf, Reserve_invalid p req.Quantity now h0]
    exact ⟨trivial, ProductMemRepository.mutate_same r _ p h⟩
  · have hb : p.Balance < req.Quantity := by
      by_contra hc
      exact hq ⟨h0, not_lt.mp hc⟩
    simp only [ProductService.reserveOne, hf, Reserve_insufficient p req.Quantity now h0 hb]
    exact ⟨trivial, ProductMemRepository.mutate_same r _ p h⟩

theorem balanceOf_eq_some (r : ProductMemRepository) (pid : String) (b : Int) :
    balanceOf r pid = some b ↔ ∃ p, r.FindByID pid = .ok p ∧ p.Balance = b := by
  unfold balanceOf ProductMemRepository.FindByID
  cases h : r.products.get pid with
  | none => simp
  | some p => simp

/-- One turn of the loop, on a well-formed repository: when it reports a success,
what it reports as the new balance, and what it does to every balance. -/
theorem reserveOne_spec (r : ProductMemRepository) (req : ReservationRequest) (now : Time)
    (hwf : r.WF) :
    (ProductService.reserveOne r req now).2.WF ∧
    ((ProductService.reserveOne r req now).1.Success = true ↔
      ∃ b, balanceOf r req.ProductID = some b ∧ 0 < req.Quantity ∧ req.Quantity ≤ b) ∧
    ((ProductService.reserveOne r req now).1.Success = true →
      ∀ b, balanceOf r req.ProductID = some b →
        (ProductService.reserveOne r req now).1.NewBalance = b - req.Quantity) ∧
    ∀ pid, balanceOf (ProductService.reserveOne r req now).2 pid =
      (balanceOf r pid).map
        (fun b => b - debitOf req (ProductService.reserveOne r req now).1 pid) := by
  cases h : r.products.get req.ProductID with
  | none =>
    rw [reserveOne_notfound r req now h]
    refine ⟨hwf, ?_, ?_, ?_⟩
    · simp [balanceOf, h]
    · intro hs
      simp at hs
    · intro pid
      simp [debitOf]
  | some p =>
    by_cases hq : 0 < req.Quantity ∧ req.Quantity ≤ p.Balance
    · rw [reserveOne_ok r req now p hwf h hq.1 hq.2]
      have hid : p.ID = req.ProductID := ProductMemRepository.WF_get r _ p hwf h
      refine ⟨ProductMemRepository.WF_mutate r _ _ hwf hid, ?_, ?_, ?_⟩
      · simp [balanceOf, h, hq]
      · intro _ b hb
        simp [balanceOf, h] at hb
        simp [hb]
      · intro pid
        by_cases hp : pid = req.ProductID
        · subst hp
          simp [balanceOf, ProductMemRepository.mutate, GoMap.get_set_self, h, debitOf]
        · have hp' : ¬ req.ProductID = pid := fun e => hp e.symm
          simp [balanceOf, ProductMemRepository.mutate, GoMap.get_set_ne _ _ _ _ hp, debitOf, hp']
          cases r.products.get pid <;> rfl
    · obtain ⟨h1, h2⟩ := reserveOne_denied r req now p h hq
      rw [h2]
      refine ⟨hwf, ?_, ?_, ?_⟩
      · simp [h1, balanceOf, h]
        intro ha
        by_contra hc
        exact hq ⟨ha, not_lt.mp hc⟩
      · intro hs
        rw [h1] at hs
        simp at hs
      · intro pid
        simp [debitOf, h1]

theorem debited_nil (resps : List ReservationResponse) (pid : String) :
    debited [] resps pid = 0 := by
  simp [debited]

theorem debited_cons (req : ReservationRequest) (reqs : List ReservationRequest)
    (resp : ReservationResponse) (resps : List ReservationResponse) (pid : String) :
    debited (req :: reqs) (resp :: resps) pid = debitOf req resp pid + debited reqs resps pid := by
  simp [debited]

/-- The loop of the batch on a well-formed repository: the repository stays
well-formed, every balance ends as the initial one less what the successful items of
its product took, and the outcome of item `i` is decided by (and reports) the balance
left by the successful items before it. -/
theorem reserveLoop_spec (clock : Nat → Time) (reqs : List ReservationRequest) :
    ∀ (k : Nat) (r : ProductMemRepository), r.WF →
      (ProductService.reserveLoop clock k reqs r []).2.WF ∧
      (∀ pid, balanceOf (ProductService.reserveLoop clock k reqs r []).2 pid =
        (balanceOf r pid).map
          (fun b => b - debited reqs (ProductService.reserveLoop clock k reqs r []).1 pid)) ∧
      ∀ (i : Nat) (req : ReservationRequest) (resp : ReservationResponse),
        reqs[i]? = some req →
        (ProductService.reserveLoop clock k reqs r []).1[i]? = some resp →
          (resp.Success = true ↔
            ∃ b, balanceOf r req.ProductID = some b ∧ 0 < req.Quantity ∧
              req.Quantity ≤ b - debited (reqs.take i)
                ((ProductService.reserveLoop clock k reqs r []).1.take i) req.ProductID) ∧
          (resp.Success = true → ∀ b, balanceOf r req.ProductID = some b →
            resp.NewBalance = b - debited (reqs.take i)
                ((ProductService.reserveLoop clock k reqs r []).1.take i) req.ProductID
              - req.Quantity) := by
  induction reqs with
  | nil =>
    intro k r hwf
    refine ⟨hwf, ?_, ?_⟩
    · intro pid
      simp only [ProductService.reserveLoop, debited_nil]
      cases balanceOf r pid <;> simp
    · intro i req resp hreq
      simp at hreq
  | cons req0 rest ih =>
    intro k r hwf
    obtain ⟨hwf1, hs, hn, hbal⟩ := reserveOne_spec r req0 (clock k) hwf
    obtain ⟨hwf2, hbal2, hidx⟩ := ih (k + 1) (ProductService.reserveOne r req0 (clock k)).2 hwf1
    rw [reserveLoop_cons_fst, reserveLoop_cons_snd]
    refine ⟨hwf2, ?_, ?_⟩
    · intro pid
      rw [hbal2 pid, hbal pid, debited_cons]
      cases balanceOf r pid with
      | none => rfl
      | some b =>
        simp only [Option.map_some']
        congr 1
        omega
    · intro i req resp hreq hresp
      cases i with
      | zero =>
        simp only [List.getElem?_cons_zero, Option.some.injEq] at hreq hresp
        subst hreq
        subst hresp
        simp only [List.take_zero, debited_nil, sub_zero]
        exact ⟨hs, hn⟩
      | succ j =>
        simp only [List.getElem?_cons_succ] at hreq hresp
        obtain ⟨h1, h2⟩ := hidx j req resp hreq hresp
        simp only [List.take_succ_cons, debited_cons]
        rw [hbal req.ProductID] at h1 h2
        constructor
        · rw [h1]
          constructor
          · rintro ⟨b1, hb1, hq, hle⟩
            cases hb : balanceOf r req.ProductID with
            | none => simp [hb] at hb1
            | some b =>
              simp only [hb, Option.map_some', Option.some.injEq] at hb1
              refine ⟨b, rfl, hq, ?_⟩
              omega
          · rintro ⟨b, hb, hq, hle⟩
            refine ⟨b - debitOf req0 (ProductService.reserveOne r req0 (clock k)).1 req.ProductID,
              ?_, hq, ?_⟩
            · simp [hb]
            · omega
        · intro hsucc b hb
          have h3 := h2 hsucc
            (b - debitOf req0 (ProductService.reserveOne r req0 (clock k)).1 req.ProductID)
            (by simp [hb])
          rw [h3]
          omega

/-- C4: on a repository whose products are stored under their IDs, the batch is
processed item by item with no rollback.  The outcome of item `i` is a success
exactly when its product is in the repository, its quantity is positive and at most
`r_i`, the product's initial balance less the quantities of the earlier successful
items of the same product; a successful outcome reports `r_i - q_i`; and after the
call every product has its initial balance less the sum of the quantities of its
successful items, whatever failed elsewhere in the batch. -/
theorem C4_batch_sequential_no_rollback (r : ProductMemRepository)
    (requests : List ReservationRequest) (clock : Nat → Time) (hwf : r.WF) :
    (∀ (i : Nat) (req : ReservationRequest) (resp : ReservationResponse),
      requests[i]? = some req →
      (ProductService.ReserveMultipleProducts r requests clock).1.1[i]? = some resp →
        (resp.Success = true ↔
          ∃ p, r.FindByID req.ProductID = .ok p ∧ 0 < req.Quantity ∧
            req.Quantity ≤ p.Balance - debited (requests.take i)
              ((ProductService.ReserveMultipleProducts r requests clock).1.1.take i)
              req.ProductID) ∧
        (resp.Success = true → ∀ p, r.FindByID req.ProductID = .ok p →
          resp.NewBalance = p.Balance - debited (requests.take i)
              ((ProductService.ReserveMultipleProducts r requests clock).1.1.take i)
              req.ProductID - req.Quantity)) ∧
    (∀ (pid : String) (p : Product), r.FindByID pid = .ok p →
      ∃ p', (ProductService.ReserveMultipleProducts r requests clock).2.FindByID pid = .ok p' ∧
        p'.Balance = p.Balance -
          debited requests (ProductService.ReserveMultipleProducts r requests clock).1.1 pid) ∧
    (∀ (pid : String), r.FindByID pid = .error .ErrProductNotFound →
      (ProductService.ReserveMultipleProducts r requests clock).2.FindByID pid =
        .error .ErrProductNotFound) := by
  obtain ⟨_, hbal, hidx⟩ := reserveLoop_spec clock requests 0 r hwf
  simp only [ProductService.ReserveMultipleProducts]
  refine ⟨?_, ?_, ?_⟩
  · intro i req resp hreq hresp
    obtain ⟨h1, h2⟩ := hidx i req resp hreq hresp
    constructor
    · rw [h1]
      constructor
      · rintro ⟨b, hb, hq, hle⟩
        obtain ⟨p, hp, hpb⟩ := (balanceOf_eq_some r _ b).mp hb
        exact ⟨p, hp, hq, by rw [hpb]; exact hle⟩
      · rintro ⟨p, hp, hq, hle⟩
        exact ⟨p.Balance, (balanceOf_eq_some r _ _).mpr ⟨p, hp, rfl⟩, hq, hle⟩
    · intro hs p hp
      exact h2 hs p.Balance ((balanceOf_eq_some r _ _).mpr ⟨p, hp, rfl⟩)
  · intro pid p hp
    have hb : balanceOf r pid = some p.Balance := (balanceOf_eq_some r _ _).mpr ⟨p, hp, rfl⟩
    have h := hbal pid
    rw [hb] at h
    exact (balanceOf_eq_some _ _ _).mp h
  · intro pid hp
    have hb : balanceOf r pid = none := by
      unfold balanceOf
      unfold ProductMemRepository.FindByID at hp
      cases hg : r.products.get pid with
      | none => rfl
      | some p => simp [hg] at hp
    have h := hbal pid
    rw [hb] at h
    unfold balanceOf at h
    unfold ProductMemRepository.FindByID
    cases hg : (ProductService.reserveLoop clock 0 requests r []).2.products.get pid with
    | none => rfl
    | some p => simp [hg] at h

/-- C4 on `sampleRepo` and `sampleBatch`: product `a` ends with balance
`5 - (2 + 3)`. -/
theorem C4_batch_sequential_no_rollback_witness :
    sampleRepo.WF ∧
    ∃ p', (ProductService.ReserveMultipleProducts sampleRepo sampleBatch
        (fun i => 100 + i)).2.FindByID "a" = .ok p' ∧
      p'.Balance = 5 - debited sampleBatch
        (ProductService.ReserveMultipleProducts sampleRepo sampleBatch (fun i => 100 + i)).1.1 "a" :=
  ⟨by decide,
    (C4_batch_sequential_no_rollback sampleRepo sampleBatch (fun i => 100 + i) (by decide)).2.1
      "a" ⟨"a", "A", "first", 5, 0, 0⟩ rfl⟩

end Stock

/-! ### Closing an invoice -/

namespace Billing

theorem status_closed_ne_open : StatusClosed ≠ StatusOpen := by decide

theorem CanBePrinted_open (inv : Invoice) (h : inv.Status = StatusOpen) :
    inv.CanBePrinted = true := by
  simp [Invoice.CanBePrinted, h]

theorem CanBePrinted_closed (inv : Invoice) (h : inv.Status = StatusClosed) :
    inv.CanBePrinted = false := by
  simp [Invoice.CanBePrinted, h, status_closed_ne_open]

theorem Close_open (inv : Invoice) (now : Time) (h : inv.Status = StatusOpen) :
    inv.Close now =
      (none, { inv with Status := StatusClosed, ClosedAt := some now, UpdatedAt := now }) := by
  simp [Invoice.Close, CanBePrinted_open inv h]

namespace InvoiceMemRepository

theorem FindByID_eq_ok (r : InvoiceMemRepository) (id : String) (inv : Invoice) :
    r.FindByID id = .ok inv ↔ r.invoices.get id = some inv := by
  unfold FindByID
  cases h : r.invoices.get id with
  | none => simp
  | some v => simp

/-- `Update` of the object that the repository already holds under its ID (the
pointer that `FindByID` returned) succeeds and changes nothing. -/
theorem Update_stored_invoice (r : InvoiceMemRepository) (inv : Invoice)
    (h : r.invoices.get inv.ID = some inv) : r.Update inv = (none, r) := by
  simp [Update, h, GoMap.set_get_same _ _ _ h]

end InvoiceMemRepository

/-- `PrintInvoice` of a stored invoice that is not open: the error, and the state
as it was. -/
theorem PrintInvoice_closed {σ : Type} (c : StockClient σ) (s : ServiceState σ) (id : String)
    (inv : Invoice) (now : Time) (hinv : s.repo.invoices.get id = some inv)
    (hst : inv.Status = StatusClosed) :
    InvoiceService.PrintInvoice c s id now = (.error .ErrCannotPrintOpenInvoice, s) := by
  have hf : s.repo.FindByID id = .ok inv := (InvoiceMemRepository.FindByID_eq_ok _ _ _).mpr hinv
  simp [InvoiceService.PrintInvoice, hf, CanBePrinted_closed inv hst]

/-- `PrintInvoice` of an open invoice stored under its ID when the reservation
returns no error. -/
theorem PrintInvoice_ok {σ : Type} (c : StockClient σ) (s : ServiceState σ) (id : String)
    (inv : Invoice) (now : Time) (hinv : s.repo.invoices.get id = some inv) (hid : inv.ID = id)
    (hst : inv.Status = StatusOpen) (hres : (c.ReserveProducts inv.Items s.remote).1 = none) :
    InvoiceService.PrintInvoice c s id now =
      (.ok { inv with Status := StatusClosed, ClosedAt := some now, UpdatedAt := now },
        { repo := s.repo.mutate id
            { inv with Status := StatusClosed, ClosedAt := some now, UpdatedAt := now },
          remote := (c.ReserveProducts inv.Items s.remote).2,
          calls := s.calls ++ [.ReserveProducts inv.Items] }) := by
  have hf : s.repo.FindByID id = .ok inv := (InvoiceMemRepository.FindByID_eq_ok _ _ _).mpr hinv
  have hu : (s.repo.mutate id
      { inv with Status := StatusClosed, ClosedAt := some now, UpdatedAt := now }).Update
      { inv with Status := StatusClosed, ClosedAt := some now, UpdatedAt := now } =
      (none, s.repo.mutate id
        { inv with Status := StatusClosed, ClosedAt := some now, UpdatedAt := now }) := by
    apply InvoiceMemRepository.Update_stored_invoice
    simp [InvoiceMemRepository.mutate, hid, GoMap.get_set_self]
  cases hr : c.ReserveProducts inv.Items s.remote with
  | mk err remote =>
    rw [hr] at hres
    simp only at hres
    subst hres
    simp only [InvoiceService.PrintInvoice, hf, CanBePrinted_open inv hst, hr, Close_open inv now hst,
      hu]
    rfl

/-- `PrintInvoice` of a stored open invoice when the reservation returns an error. -/
theorem PrintInvoice_reservation_error {σ : Type} (c : StockClient σ) (s : ServiceState σ)
    (id : String) (inv : Invoice) (now : Time) (err : DomainError)
    (hinv : s.repo.invoices.get id = some inv) (hst : inv.Status = StatusOpen)
    (hres : (c.ReserveProducts inv.Items s.remote).1 = some err) :
    InvoiceService.PrintInvoice c s id now =
      (.error (.wrapf "erro ao reservar produtos: " err),
        { s with remote := (c.ReserveProducts inv.Items s.remote).2,
                 calls := s.calls ++ [.ReserveProducts inv.Items] }) := by
  have hf : s.repo.FindByID id = .ok inv := (InvoiceMemRepository.FindByID_eq_ok _ _ _).mpr hinv
  cases hr : c.ReserveProducts inv.Items s.remote with
  | mk e remote =>
    rw [hr] at hres
    simp only at hres
    subst hres
    simp only [InvoiceService.PrintInvoice, hf, CanBePrinted_open inv hst, hr]
    rfl

/-- After a `PrintInvoice` that returned an invoice, the repository holds under `id`
an invoice whose status is `StatusClosed`. -/
theorem PrintInvoice_ok_stored {σ : Type} (c : StockClient σ) (s s' : ServiceState σ)
    (id : String) (now : Time) (inv' : Invoice)
    (h : InvoiceService.PrintInvoice c s id now = (.ok inv', s')) :
    s'.repo.invoices.get id = some inv' ∧ inv'.Status = StatusClosed := by
  unfold InvoiceService.PrintInvoice at h
  cases hf : s.repo.FindByID id with
  | error e => simp [hf] at h
  | ok inv =>
    simp only [hf] at h
    by_cases hc : inv.CanBePrinted = true
    · simp only [hc, Bool.not_true, Bool.false_eq_true, if_false] at h
      cases hr : c.ReserveProducts inv.Items s.remote with
      | mk e remote =>
        cases e with
        | some e => simp [hr] at h
        | none =>
          have hst : inv.Status = StatusOpen := by
            simpa [Invoice.CanBePrinted] using hc
          simp only [hr, Close_open inv now hst] at h
          generalize hclosed :
            ({ inv with Status := StatusClosed, ClosedAt := some now, UpdatedAt := now } : Invoice)
              = closed at h
          have hcs : closed.Status = StatusClosed := by rw [← hclosed]
          unfold InvoiceMemRepository.Update at h
          cases hg : (s.repo.mutate id closed).invoices.get closed.ID with
          | none => simp [hg] at h
          | some v =>
            simp only [hg, Prod.mk.injEq, Except.ok.injEq] at h
            obtain ⟨h1, h2⟩ := h
            subst h1
            subst h2
            refine ⟨?_, hcs⟩
            by_cases hk : id = closed.ID
            · simp only
              rw [← hk]
              exact GoMap.get_set_self _ _ _
            · simp only
              rw [GoMap.get_set_ne _ _ _ _ hk]
              exact GoMap.get_set_self _ _ _
    · simp [hc] at h

/-- C5: `PrintInvoice` of a stored invoice whose status is `StatusClosed` fails with
`ErrCannotPrintOpenInvoice` (the error of an already closed invoice; neither
`ErrInvoiceNotFound` nor a wrapped reservation error) and leaves the whole state as
it was: no call of the client is added, the remote stock is unchanged and so is the
repository, the invoice included.  And once a `PrintInvoice` has returned an
invoice, every later `PrintInvoice` of the same ID fails this way. -/
theorem C5_closed_invoice_rejected {σ : Type} (c : StockClient σ) :
    (∀ (s : ServiceState σ) (id : String) (inv : Invoice) (now : Time),
      s.repo.FindByID id = .ok inv → inv.Status = StatusClosed →
        InvoiceService.PrintInvoice c s id now = (.error .ErrCannotPrintOpenInvoice, s) ∧
        (InvoiceService.PrintInvoice c s id now).1 ≠ .error .ErrInvoiceNotFound ∧
        (∀ e, (InvoiceService.PrintInvoice c s id now).1 ≠
          .error (.wrapf "erro ao reservar produtos: " e)) ∧
        (InvoiceService.PrintInvoice c s id now).2.calls = s.calls ∧
        reserveCalls (InvoiceService.PrintInvoice c s id now).2.calls = reserveCalls s.calls ∧
        (InvoiceService.PrintInvoice c s id now).2.remote = s.remote ∧
        (InvoiceService.PrintInvoice c s id now).2.repo = s.repo ∧
        (InvoiceService.PrintInvoice c s id now).2.repo.FindByID id = .ok inv) ∧
    (∀ (s s' : ServiceState σ) (id : String) (now : Time) (inv' : Invoice),
      InvoiceService.PrintInvoice c s id now = (.ok inv', s') →
        ∀ now', InvoiceService.PrintInvoice c s' id now' =
          (.error .ErrCannotPrintOpenInvoice, s')) := by
  constructor
  · intro s id inv now hf hst
    have hinv := (InvoiceMemRepository.FindByID_eq_ok _ _ _).mp hf
    rw [PrintInvoice_closed c s id inv now hinv hst]
    refine ⟨rfl, ?_, ?_, rfl, rfl, rfl, rfl, hf⟩
    · simp
    · intro e
      simp
  · intro s s' id now inv' h now'
    obtain ⟨h1, h2⟩ := PrintInvoice_ok_stored c s s' id now inv' h
    exact PrintInvoice_closed c s' id inv' now' h1 h2

/-- C5 on `sampleState`: the closed invoice `inv-3` is rejected, and so is `inv-1`
once it has been closed. -/
theorem C5_closed_invoice_rejected_witness :
    InvoiceService.PrintInvoice (directClient sampleRoute sampleClock) sampleState "inv-3" 50 =
      (.error .ErrCannotPrintOpenInvoice, sampleState) ∧
    InvoiceService.PrintInvoice (directClient sampleRoute sampleClock)
        (InvoiceService.PrintInvoice (directClient sampleRoute sampleClock) sampleState "inv-1" 50).2
        "inv-1" 60 =
      (.error .ErrCannotPrintOpenInvoice,
        (InvoiceService.PrintInvoice (directClient sampleRoute sampleClock) sampleState "inv-1" 50).2) :=
  ⟨((C5_closed_invoice_rejected (directClient sampleRoute sampleClock)).1 sampleState "inv-3"
      sampleClosedInvoice 50 rfl rfl).1,
    (C5_closed_invoice_rejected (directClient sampleRoute sampleClock)).2 sampleState
      (InvoiceService.PrintInvoice (directClient sampleRoute sampleClock) sampleState "inv-1" 50).2
      "inv-1" 50 _ rfl 60⟩

/-- C6: for an open invoice stored under its ID, when `ReserveProducts` returns no
error `PrintInvoice` returns an invoice, and that invoice is the one found afterwards
in the repository by the ID: its status is `StatusClosed`, its closed timestamp is
set (to the time of the call), and its ID, number and items are those of the invoice
before the call. -/
theorem C6_print_closes_invoice {σ : Type} (c : StockClient σ) (s : ServiceState σ)
    (id : String) (inv : Invoice) (now : Time)
    (hf : s.repo.FindByID id = .ok inv) (hid : inv.ID = id) (hst : inv.Status = StatusOpen)
    (hres : (c.ReserveProducts inv.Items s.remote).1 = none) :
    ∃ inv', (InvoiceService.PrintInvoice c s id now).1 = .ok inv' ∧
      (InvoiceService.PrintInvoice c s id now).2.repo.FindByID id = .ok inv' ∧
      InvoiceService.GetInvoice (InvoiceService.PrintInvoice c s id now).2 id = .ok inv' ∧
      inv'.Status = StatusClosed ∧
      inv'.ClosedAt = some now ∧
      inv'.ClosedAt.isSome = true ∧
      inv'.ID = inv.ID ∧
      inv'.Number = inv.Number ∧
      inv'.Items = inv.Items := by
  have hinv := (InvoiceMemRepository.FindByID_eq_ok _ _ _).mp hf
  rw [PrintInvoice_ok c s id inv now hinv hid hst hres]
  refine ⟨{ inv with Status := StatusClosed, ClosedAt := some now, UpdatedAt := now },
    rfl, ?_, ?_, rfl, rfl, rfl, rfl, rfl, rfl⟩
  · simp [InvoiceMemRepository.FindByID, InvoiceMemRepository.mutate, GoMap.get_set_self]
  · simp [InvoiceService.GetInvoice, InvoiceMemRepository.FindByID, InvoiceMemRepository.mutate,
      GoMap.get_set_self]

/-- C6 on `sampleState`: the stock covers the 4 units of `inv-1`, which is closed
at time 50. -/
theorem C6_print_closes_invoice_witness :
    sampleState.repo.FindByID "inv-1" = .ok sampleInvoice ∧
    sampleInvoice.Status = StatusOpen ∧
    ((directClient sampleRoute sampleClock).ReserveProducts sampleInvoice.Items sampleState.remote).1 = none ∧
    ∃ inv', (InvoiceService.PrintInvoice (directClient sampleRoute sampleClock) sampleState "inv-1" 50).1
        = .ok inv' ∧
      (InvoiceService.PrintInvoice (directClient sampleRoute sampleClock) sampleState "inv-1"
        50).2.repo.FindByID "inv-1" = .ok inv' ∧
      InvoiceService.GetInvoice
        (InvoiceService.PrintInvoice (directClient sampleRoute sampleClock) sampleState "inv-1" 50).2 "inv-1"
        = .ok inv' ∧
      inv'.Status = StatusClosed ∧
      inv'.ClosedAt = some 50 ∧
      inv'.ClosedAt.isSome = true ∧
      inv'.ID = sampleInvoice.ID ∧
      inv'.Number = sampleInvoice.Number ∧
      inv'.Items = sampleInvoice.Items :=
  ⟨rfl, rfl, rfl,
    C6_print_closes_invoice (directClient sampleRoute sampleClock) sampleState "inv-1" sampleInvoice 50
      rfl rfl rfl rfl⟩

/-- C7: for a stored open invoice, when `ReserveProducts` returns an error
`PrintInvoice` returns an error (the one of the client, wrapped), has called
`ReserveProducts` exactly once, with the items of the invoice, and leaves the
repository as it was: the invoice found by the ID is the one before the call, still
`StatusOpen`, with the closed timestamp it had (none, when it had none). -/
theorem C7_reservation_error_keeps_open {σ : Type} (c : StockClient σ) (s : ServiceState σ)
    (id : String) (inv : Invoice) (now : Time) (err : DomainError)
    (hf : s.repo.FindByID id = .ok inv) (hst : inv.Status = StatusOpen)
    (hres : (c.ReserveProducts inv.Items s.remote).1 = some err) :
    (InvoiceService.PrintInvoice c s id now).1 =
      .error (.wrapf "erro ao reservar produtos: " err) ∧
    (InvoiceService.PrintInvoice c s id now).2.calls =
      s.calls ++ [.ReserveProducts inv.Items] ∧
    reserveCalls (InvoiceService.PrintInvoice c s id now).2.calls = reserveCalls s.calls + 1 ∧
    (InvoiceService.PrintInvoice c s id now).2.remote = (c.ReserveProducts inv.Items s.remote).2 ∧
    (InvoiceService.PrintInvoice c s id now).2.repo = s.repo ∧
    (InvoiceService.PrintInvoice c s id now).2.repo.FindByID id = .ok inv ∧
    inv.Status = StatusOpen ∧
    (inv.ClosedAt = none →
      ∀ inv', (InvoiceService.PrintInvoice c s id now).2.repo.FindByID id = .ok inv' →
        inv'.Status = StatusOpen ∧ inv'.ClosedAt = none) := by
  have hinv := (InvoiceMemRepository.FindByID_eq_ok _ _ _).mp hf
  rw [PrintInvoice_reservation_error c s id inv now err hinv hst hres]
  refine ⟨rfl, rfl, ?_, rfl, rfl, hf, hst, ?_⟩
  · show reserveCalls (s.calls ++ [ClientCall.ReserveProducts inv.Items]) = reserveCalls s.calls + 1
    generalize s.calls = l
    induction l with
    | nil => simp [reserveCalls]
    | cons call rest ih =>
      cases call <;> simp [reserveCalls, ih]
  · intro hc inv' hf'
    simp only at hf'
    rw [hf] at hf'
    cases hf'
    exact ⟨hst, hc⟩

/-- C7 on `sampleState`: the stock does not cover the 9 units of `inv-2`, which
stays open. -/
theorem C7_reservation_error_keeps_open_witness :
    sampleState.repo.FindByID "inv-2" = .ok sampleLargeInvoice ∧
    sampleLargeInvoice.Status = StatusOpen ∧
    ((directClient sampleRoute sampleClock).ReserveProducts sampleLargeInvoice.Items sampleState.remote).1 =
      some (.errorf "falha ao reservar produto a: saldo insuficiente") ∧
    (InvoiceService.PrintInvoice (directClient sampleRoute sampleClock) sampleState "inv-2" 50).1 =
      .error (.wrapf "erro ao reservar produtos: "
        (.errorf "falha ao reservar produto a: saldo insuficiente")) ∧
    (InvoiceService.PrintInvoice (directClient sampleRoute sampleClock) sampleState "inv-2" 50).2.repo =
      sampleState.repo :=
  ⟨rfl, rfl, rfl,
    (C7_reservation_error_keeps_open (directClient sampleRoute sampleClock) sampleState "inv-2"
      sampleLargeInvoice 50 (.errorf "falha ao reservar produto a: saldo insuficiente")
      rfl rfl rfl).1,
    (C7_reservation_error_keeps_open (directClient sampleRoute sampleClock) sampleState "inv-2"
      sampleLargeInvoice 50 (.errorf "falha ao reservar produto a: saldo insuficiente")
      rfl rfl rfl).2.2.2.2.1⟩

/-! ### Creating an invoice -/

theorem wrapInt_succ (x : Int) (h0 : 0 ≤ x) (h1 : x < 2 ^ 63 - 1) : wrapInt (x + 1) = x + 1 := by
  unfold wrapInt
  omega

theorem snapshot_of_ok {σ : Type} (c : StockClient σ) (remote : σ) (item : InvoiceItem)
    (product : ProductInfo) (h : c.GetProduct item.ProductID remote = .ok product) :
    snapshot c remote item =
      { ProductID := item.ProductID, ProductCode := product.Code,
        Description := product.Description, Quantity := item.Quantity } := by
  simp [snapshot, h]

/-- The creation loop on items that are all accepted. -/
theorem enrichItems_ok {σ : Type} (c : StockClient σ) (remote : σ) (items : List InvoiceItem) :
    ∀ (acc : List InvoiceItem) (calls : List ClientCall),
      (∀ item ∈ items, itemAccepted c remote item) →
        InvoiceService.enrichItems c remote items acc calls =
          (.ok (acc ++ items.map (snapshot c remote)),
            calls ++ items.map (fun item => ClientCall.GetProduct item.ProductID)) := by
  induction items with
  | nil => intro acc calls _; simp [InvoiceService.enrichItems]
  | cons item rest ih =>
    intro acc calls h
    obtain ⟨hq, product, hp, hb⟩ := h item (List.mem_cons_self _ _)
    have h1 : ¬ item.Quantity ≤ 0 := not_le.mpr hq
    have h2 : ¬ product.Balance < item.Quantity := not_lt.mpr hb
    have hrest : ∀ x ∈ rest, itemAccepted c remote x :=
      fun x hx => h x (List.mem_cons_of_mem _ hx)
    simp only [InvoiceService.enrichItems, h1, if_false, hp, h2]
    rw [ih _ _ hrest, List.map_cons, snapshot_of_ok c remote item product hp]
    simp

/-- The creation loop when the first item that is not accepted has a quantity that
is not positive. -/
theorem enrichItems_invalid {σ : Type} (c : StockClient σ) (remote : σ)
    (pre : List InvoiceItem) (item : InvoiceItem) (post : List InvoiceItem) :
    ∀ (acc : List InvoiceItem) (calls : List ClientCall),
      (∀ x ∈ pre, itemAccepted c remote x) → item.Quantity ≤ 0 →
        (InvoiceService.enrichItems c remote (pre ++ item :: post) acc calls).1 =
          .error .ErrInvalidQuantity := by
  induction pre with
  | nil =>
    intro acc calls _ hq
    simp [InvoiceService.enrichItems, hq]
  | cons x rest ih =>
    intro acc calls h hq
    obtain ⟨hxq, product, hp, hb⟩ := h x (List.mem_cons_self _ _)
    have h1 : ¬ x.Quantity ≤ 0 := not_le.mpr hxq
    have h2 : ¬ product.Balance < x.Quantity := not_lt.mpr hb
    have hrest : ∀ y ∈ rest, itemAccepted c remote y :=
      fun y hy => h y (List.mem_cons_of_mem _ hy)
    simp only [List.cons_append, InvoiceService.enrichItems, h1, if_false, hp, h2]
    exact ih _ _ hrest hq

/-- The creation loop fails when some item is not accepted. -/
theorem enrichItems_error {σ : Type} (c : StockClient σ) (remote : σ) (items : List InvoiceItem) :
    ∀ (acc : List InvoiceItem) (calls : List ClientCall),
      ¬ (∀ item ∈ items, itemAccepted c remote item) →
        ∃ err, (InvoiceService.enrichItems c remote items acc calls).1 = .error err := by
  induction items with
  | nil => intro acc calls h; exact absurd (fun _ hx => by simp at hx) h
  | cons item rest ih =>
    intro acc calls h
    by_cases hq : item.Quantity ≤ 0
    · simp only [InvoiceService.enrichItems, hq, if_true]
      exact ⟨_, rfl⟩
    · cases hp : c.GetProduct item.ProductID remote with
      | error e =>
        simp only [InvoiceService.enrichItems, hq, if_false, hp]
        exact ⟨_, rfl⟩
      | ok product =>
        by_cases hb : product.Balance < item.Quantity
        · simp only [InvoiceService.enrichItems, hq, if_false, hp, hb, if_true]
          exact ⟨_, rfl⟩
        · simp only [InvoiceService.enrichItems, hq, if_false, hp, hb]
          apply ih
          intro hrest
          apply h
          intro x hx
          rcases List.mem_cons.mp hx with hx | hx
          · subst hx
            exact ⟨not_le.mp hq, product, hp, not_lt.mp hb⟩
          · exact hrest x hx

/-- The creation loop calls the client for product lookups only. -/
theorem enrichItems_calls {σ : Type} (c : StockClient σ) (remote : σ) (items : List InvoiceItem) :
    ∀ (acc : List InvoiceItem) (calls : List ClientCall),
      ∃ ids : List String,
        (InvoiceService.enrichItems c remote items acc calls).2 =
          calls ++ ids.map ClientCall.GetProduct := by
  induction items with
  | nil => intro acc calls; exact ⟨[], by simp [InvoiceService.enrichItems]⟩
  | cons item rest ih =>
    intro acc calls
    by_cases hq : item.Quantity ≤ 0
    · exact ⟨[], by simp [InvoiceService.enrichItems, hq]⟩
    · cases hp : c.GetProduct item.ProductID remote with
      | error e => exact ⟨[item.ProductID], by simp [InvoiceService.enrichItems, hq, hp]⟩
      | ok product =>
        by_cases hb : product.Balance < item.Quantity
        · exact ⟨[item.ProductID], by simp [InvoiceService.enrichItems, hq, hp, hb]⟩
        · simp only [InvoiceService.enrichItems, hq, if_false, hp, hb]
          obtain ⟨ids, hids⟩ := ih
            (acc ++ [{ ProductID := item.ProductID, ProductCode := product.Code,
                       Description := product.Description, Quantity := item.Quantity }])
            (calls ++ [ClientCall.GetProduct item.ProductID])
          exact ⟨item.ProductID :: ids, by rw [hids]; simp⟩

theorem snapshot_ProductID {σ : Type} (c : StockClient σ) (remote : σ) (item : InvoiceItem) :
    (snapshot c remote item).ProductID = item.ProductID := by
  unfold snapshot
  split <;> rfl

theorem snapshot_Quantity {σ : Type} (c : StockClient σ) (remote : σ) (item : InvoiceItem) :
    (snapshot c remote item).Quantity = item.Quantity := by
  unfold snapshot
  split <;> rfl

/-- The loop of `Validate` on the line items of accepted items: it passes exactly
when no product ID is empty, and otherwise returns `ErrInvalidQuantity`. -/
theorem validateItems_snapshot {σ : Type} (c : StockClient σ) (remote : σ)
    (items : List InvoiceItem) (h : ∀ item ∈ items, 0 < item.Quantity) :
    (validateItems (items.map (snapshot c remote)) = none ↔
      ∀ item ∈ items, item.ProductID ≠ "") ∧
    (validateItems (items.map (snapshot c remote)) = none ∨
      validateItems (items.map (snapshot c remote)) = some .ErrInvalidQuantity) := by
  induction items with
  | nil => simp [validateItems]
  | cons item rest ih =>
    have hq : ¬ item.Quantity ≤ 0 := not_le.mpr (h item (List.mem_cons_self _ _))
    obtain ⟨ih1, ih2⟩ := ih (fun x hx => h x (List.mem_cons_of_mem _ hx))
    by_cases hid : item.ProductID = ""
    · simp [validateItems, snapshot_ProductID, snapshot_Quantity, hid]
    · have hstep : validateItems ((item :: rest).map (snapshot c remote)) =
          validateItems (rest.map (snapshot c remote)) := by
        simp [validateItems, snapshot_ProductID, snapshot_Quantity, hid, hq]
      rw [hstep]
      refine ⟨?_, ih2⟩
      rw [ih1]
      simp [hid]

theorem CreateInvoice_empty {σ : Type} (c : StockClient σ) (s : ServiceState σ)
    (newID : String) (created updated : Time) :
    InvoiceService.CreateInvoice c s [] newID created updated = (.error .ErrInvoiceNoItems, s) := by
  simp [InvoiceService.CreateInvoice]

/-- `CreateInvoice` when some item is not accepted: an error, the repository as it
was, and lookups as the only calls of the client. -/
theorem CreateInvoice_rejected {σ : Type} (c : StockClient σ) (s : ServiceState σ)
    (items : List InvoiceItem) (newID : String) (created updated : Time)
    (h : ¬ (∀ item ∈ items, itemAccepted c s.remote item)) :
    ∃ (err : DomainError) (ids : List String),
      InvoiceService.CreateInvoice c s items newID created updated =
        (.error err, { s with calls := s.calls ++ ids.map ClientCall.GetProduct }) := by
  have hne : ¬ items.length = 0 := by
    intro h0
    apply h
    rw [List.length_eq_zero] at h0
    subst h0
    intro x hx
    simp at hx
  obtain ⟨err, herr⟩ := enrichItems_error c s.remote items [] s.calls h
  obtain ⟨ids, hids⟩ := enrichItems_calls c s.remote items [] s.calls
  refine ⟨err, ids, ?_⟩
  unfold InvoiceService.CreateInvoice
  rw [if_neg hne]
  cases hr : InvoiceService.enrichItems c s.remote items [] s.calls with
  | mk res calls =>
    rw [hr] at herr hids
    simp only at herr hids
    subst herr
    subst hids
    rfl

/-- `CreateInvoice` on a non-empty list of accepted items: the counter is advanced,
and the invoice built with the new number is stored when `Validate` passes it. -/
theorem CreateInvoice_accepted {σ : Type} (c : StockClient σ) (s : ServiceState σ)
    (items : List InvoiceItem) (newID : String) (created updated : Time)
    (hne : items ≠ []) (h : ∀ item ∈ items, itemAccepted c s.remote item) :
    InvoiceService.CreateInvoice c s items newID created updated =
      match ({ ID := newID, Number := wrapInt (s.repo.lastNumber + 1), Status := StatusOpen,
               Items := items.map (snapshot c s.remote), CreatedAt := created,
               UpdatedAt := updated } : Invoice).Validate with
      | some err =>
        (.error err,
          { repo := { s.repo with lastNumber := wrapInt (s.repo.lastNumber + 1) },
            remote := s.remote,
            calls := s.calls ++ items.map (fun item => ClientCall.GetProduct item.ProductID) })
      | none =>
        (.ok { ID := newID, Number := wrapInt (s.repo.lastNumber + 1), Status := StatusOpen,
               Items := items.map (snapshot c s.remote), CreatedAt := created,
               UpdatedAt := updated },
          { repo := { invoices := s.repo.invoices.set newID
                        { ID := newID, Number := wrapInt (s.repo.lastNumber + 1),
                          Status := StatusOpen, Items := items.map (snapshot c s.remote),
                          CreatedAt := created, UpdatedAt := updated },
                      lastNumber := wrapInt (s.repo.lastNumber + 1) },
            remote := s.remote,
            calls := s.calls ++ items.map (fun item => ClientCall.GetProduct item.ProductID) }) := by
  have hlen : ¬ items.length = 0 := by
    intro h0
    exact hne (List.length_eq_zero.mp h0)
  unfold InvoiceService.CreateInvoice
  rw [if_neg hlen, enrichItems_ok c s.remote items [] s.calls h]
  simp only [List.nil_append, InvoiceMemRepository.GetNextNumber, InvoiceMemRepository.Create]

/-! ### The sequence numbers -/

/-- One `CreateInvoice` on a repository whose counter is in range and bounds the
stored numbers: the counter stays or advances by one, an invoice that is created
takes the advanced counter as its number, and the store keeps its numbers bounded
and distinct. -/
theorem CreateInvoice_numbers {σ : Type} (c : StockClient σ) (s : ServiceState σ)
    (items : List InvoiceItem) (newID : String) (created updated : Time)
    (h0 : 0 ≤ s.repo.lastNumber) (h1 : s.repo.lastNumber < 2 ^ 63 - 1)
    (hb : numbersBounded s.repo) (hd : numbersDistinct s.repo) :
    ((InvoiceService.CreateInvoice c s items newID created updated).2.repo.lastNumber
        = s.repo.lastNumber ∨
      (InvoiceService.CreateInvoice c s items newID created updated).2.repo.lastNumber
        = s.repo.lastNumber + 1) ∧
    numbersBounded (InvoiceService.CreateInvoice c s items newID created updated).2.repo ∧
    numbersDistinct (InvoiceService.CreateInvoice c s items newID created updated).2.repo ∧
    ∀ inv, (InvoiceService.CreateInvoice c s items newID created updated).1 = .ok inv →
      inv.Number = s.repo.lastNumber + 1 ∧
      (InvoiceService.CreateInvoice c s items newID created updated).2.repo.lastNumber
        = s.repo.lastNumber + 1 := by
  by_cases hne : items = []
  · subst hne
    rw [CreateInvoice_empty]
    exact ⟨Or.inl rfl, hb, hd, fun inv h => by simp at h⟩
  · by_cases hacc : ∀ item ∈ items, itemAccepted c s.remote item
    · rw [CreateInvoice_accepted c s items newID created updated hne hacc,
        wrapInt_succ _ h0 h1]
      have hnum : (Invoice.mk newID (s.repo.lastNumber + 1) StatusOpen
          (items.map (snapshot c s.remote)) created updated none).Number
            = s.repo.lastNumber + 1 := rfl
      generalize Invoice.mk newID (s.repo.lastNumber + 1) StatusOpen
          (items.map (snapshot c s.remote)) created updated none = invoice at hnum ⊢
      cases hv : invoice.Validate with
      | some err =>
        refine ⟨Or.inr rfl, ?_, hd, fun inv h => by simp at h⟩
        intro id inv hg
        obtain ⟨ha, hb'⟩ := hb id inv hg
        exact ⟨ha, by show inv.Number ≤ s.repo.lastNumber + 1; omega⟩
      | none =>
        refine ⟨Or.inr rfl, ?_, ?_, ?_⟩
        · intro id inv hg
          simp only at hg
          by_cases hid : id = newID
          · subst hid
            rw [GoMap.get_set_self] at hg
            cases hg
            rw [hnum]
            exact ⟨by omega, le_refl _⟩
          · rw [GoMap.get_set_ne _ _ _ _ hid] at hg
            obtain ⟨ha, hb'⟩ := hb id inv hg
            exact ⟨ha, by show inv.Number ≤ s.repo.lastNumber + 1; omega⟩
        · intro id1 id2 inv1 inv2 hne12 hg1 hg2
          simp only at hg1 hg2
          by_cases hid1 : id1 = newID
          · have hid2 : id2 ≠ newID := fun e => hne12 (hid1.trans e.symm)
            rw [hid1, GoMap.get_set_self] at hg1
            rw [GoMap.get_set_ne _ _ _ _ hid2] at hg2
            cases hg1
            have := (hb id2 inv2 hg2).2
            rw [hnum]
            omega
          · rw [GoMap.get_set_ne _ _ _ _ hid1] at hg1
            by_cases hid2 : id2 = newID
            · rw [hid2, GoMap.get_set_self] at hg2
              cases hg2
              have := (hb id1 inv1 hg1).2
              rw [hnum]
              omega
            · rw [GoMap.get_set_ne _ _ _ _ hid2] at hg2
              exact hd id1 id2 inv1 inv2 hne12 hg1 hg2
        · intro inv h
          simp only [Except.ok.injEq] at h
          subst h
          exact ⟨hnum, rfl⟩
    · obtain ⟨err, ids, hr⟩ := CreateInvoice_rejected c s items newID created updated hacc
      rw [hr]
      exact ⟨Or.inl rfl, hb, hd, fun inv h => by simp at h⟩

/-- A sequence of `CreateInvoice` calls that the counter has room for: every
assigned number is above the counter at the start, the assigned numbers increase
strictly, and the store keeps its numbers bounded and distinct. -/
theorem createAll_numbers {σ : Type} (c : StockClient σ) (calls : List (CreateCall σ)) :
    ∀ (repo : InvoiceMemRepository), 0 ≤ repo.lastNumber →
      repo.lastNumber + calls.length < 2 ^ 63 →
      numbersBounded repo → numbersDistinct repo →
        (∀ n ∈ assignedNumbers (createAll c repo calls).1, repo.lastNumber < n) ∧
        (assignedNumbers (createAll c repo calls).1).Pairwise (fun a b => a < b) ∧
        numbersBounded (createAll c repo calls).2 ∧
        numbersDistinct (createAll c repo calls).2 := by
  induction calls with
  | nil =>
    intro repo _ _ hb hd
    simp only [createAll, assignedNumbers]
    exact ⟨fun n hn => by simp at hn, List.Pairwise.nil, hb, hd⟩
  | cons call rest ih =>
    intro repo h0 h1 hb hd
    have hroom : repo.lastNumber < 2 ^ 63 - 1 := by
      simp only [List.length_cons, Nat.cast_add, Nat.cast_one] at h1
      omega
    obtain ⟨hlast, hb1, hd1, hnum⟩ := CreateInvoice_numbers c
      { repo := repo, remote := call.remote, calls := [] }
      call.items call.newID call.created call.updated h0 hroom hb hd
    simp only at hlast hnum
    have h0' : 0 ≤ (InvoiceService.CreateInvoice c
        { repo := repo, remote := call.remote, calls := [] }
        call.items call.newID call.created call.updated).2.repo.lastNumber := by
      rcases hlast with h | h <;> rw [h] <;> omega
    have h1' : (InvoiceService.CreateInvoice c
        { repo := repo, remote := call.remote, calls := [] }
        call.items call.newID call.created call.updated).2.repo.lastNumber + rest.length
          < 2 ^ 63 := by
      simp only [List.length_cons, Nat.cast_add, Nat.cast_one] at h1
      rcases hlast with h | h <;> rw [h] <;> omega
    obtain ⟨ha, hp, hb2, hd2⟩ := ih _ h0' h1' hb1 hd1
    simp only [createAll]
    refine ⟨?_, ?_, hb2, hd2⟩
    · cases hres : (InvoiceService.CreateInvoice c
          { repo := repo, remote := call.remote, calls := [] }
          call.items call.newID call.created call.updated).1 with
      | error e =>
        simp only [assignedNumbers]
        intro n hn
        have := ha n hn
        rcases hlast with h | h <;> rw [h] at this <;> omega
      | ok inv =>
        obtain ⟨hn1, hn2⟩ := hnum inv hres
        simp only [assignedNumbers, List.mem_cons]
        intro n hn
        rcases hn with hn | hn
        · rw [hn, hn1]
          omega
        · have := ha n hn
          rw [hn2] at this
          omega
    · cases hres : (InvoiceService.CreateInvoice c
          { repo := repo, remote := call.remote, calls := [] }
          call.items call.newID call.created call.updated).1 with
      | error e =>
        simp only [assignedNumbers]
        exact hp
      | ok inv =>
        obtain ⟨hn1, hn2⟩ := hnum inv hres
        simp only [assignedNumbers]
        refine List.Pairwise.cons ?_ hp
        intro n hn
        have := ha n hn
        rw [hn2] at this
        rw [hn1]
        exact this

/-- C8: for every sequence of fewer than `2 ^ 63` `CreateInvoice` calls on a fresh
`InvoiceMemRepository` (whatever the client, the items and the state of the stock
service at each call), the numbers of the created invoices, in the order of the
calls, increase strictly, each is at least 1, and no two invoices stored under
different IDs at the end share a number. -/
theorem C8_sequence_numbers_increase {σ : Type} (c : StockClient σ)
    (calls : List (CreateCall σ)) (hroom : calls.length < 2 ^ 63) :
    (assignedNumbers (createAll c NewInvoiceMemRepository calls).1).Pairwise (fun a b => a < b) ∧
    (∀ n ∈ assignedNumbers (createAll c NewInvoiceMemRepository calls).1, 1 ≤ n) ∧
    (∀ id1 id2 inv1 inv2, id1 ≠ id2 →
      (createAll c NewInvoiceMemRepository calls).2.FindByID id1 = .ok inv1 →
      (createAll c NewInvoiceMemRepository calls).2.FindByID id2 = .ok inv2 →
        inv1.Number ≠ inv2.Number) ∧
    (∀ id inv, (createAll c NewInvoiceMemRepository calls).2.FindByID id = .ok inv →
      1 ≤ inv.Number) := by
  have hb : numbersBounded NewInvoiceMemRepository := by
    intro id inv h
    simp [NewInvoiceMemRepository, GoMap.get] at h
  have hd : numbersDistinct NewInvoiceMemRepository := by
    intro id1 id2 inv1 inv2 _ h
    simp [NewInvoiceMemRepository, GoMap.get] at h
  have h1 : NewInvoiceMemRepository.lastNumber + (calls.length : Int) < 2 ^ 63 := by
    have : ((calls.length : Nat) : Int) < 2 ^ 63 := by exact_mod_cast hroom
    simp only [NewInvoiceMemRepository]
    omega
  obtain ⟨ha, hp, hb2, hd2⟩ :=
    createAll_numbers c calls NewInvoiceMemRepository (le_refl _) h1 hb hd
  refine ⟨hp, ?_, ?_, ?_⟩
  · intro n hn
    have := ha n hn
    simp only [NewInvoiceMemRepository] at this
    omega
  · intro id1 id2 inv1 inv2 hne hf1 hf2
    exact hd2 id1 id2 inv1 inv2 hne ((InvoiceMemRepository.FindByID_eq_ok _ _ _).mp hf1)
      ((InvoiceMemRepository.FindByID_eq_ok _ _ _).mp hf2)
  · intro id inv hf
    exact (hb2 id inv ((InvoiceMemRepository.FindByID_eq_ok _ _ _).mp hf)).1

/-- C8 on `sampleCalls`: the first and the third call create invoices, numbered 1
and 2. -/
theorem C8_sequence_numbers_increase_witness :
    sampleCalls.length < 2 ^ 63 ∧
    assignedNumbers (createAll (directClient sampleRoute sampleClock) NewInvoiceMemRepository sampleCalls).1
      = [1, 2] ∧
    (assignedNumbers (createAll (directClient sampleRoute sampleClock) NewInvoiceMemRepository
      sampleCalls).1).Pairwise (fun a b => a < b) :=
  ⟨by decide, by decide,
    (C8_sequence_numbers_increase (directClient sampleRoute sampleClock) sampleCalls (by decide)).1⟩

/-! ### When an invoice is created -/

/-- C9 as stated fails: with a client whose lookup of the empty product ID succeeds
with balance 5, the one item of quantity 1 and empty product ID is accepted by every
condition of the claim, yet `CreateInvoice` fails (with `ErrInvalidQuantity`, from
`Validate`). -/
theorem C9_counterexample :
    ¬ ((∃ inv, (InvoiceService.CreateInvoice stubClient
          { repo := NewInvoiceMemRepository, remote := (), calls := [] }
          [{ ProductID := "", Quantity := 1 }] "n1" 1 1).1 = .ok inv) ↔
        (([{ ProductID := "", Quantity := 1 }] : List InvoiceItem) ≠ [] ∧
          ∀ item ∈ ([{ ProductID := "", Quantity := 1 }] : List InvoiceItem),
            0 < item.Quantity ∧
            ∃ product, stubClient.GetProduct item.ProductID () = .ok product ∧
              item.Quantity ≤ product.Balance)) := by
  intro h
  have hrhs : (([{ ProductID := "", Quantity := 1 }] : List InvoiceItem) ≠ [] ∧
      ∀ item ∈ ([{ ProductID := "", Quantity := 1 }] : List InvoiceItem),
        0 < item.Quantity ∧
        ∃ product, stubClient.GetProduct item.ProductID () = .ok product ∧
          item.Quantity ≤ product.Balance) := by
    refine ⟨by simp, ?_⟩
    intro item hitem
    simp only [List.mem_singleton] at hitem
    subst hitem
    exact ⟨by decide, ⟨"", "X", "any", 5⟩, rfl, by decide⟩
  obtain ⟨inv, hinv⟩ := h.mpr hrhs
  have herr : (InvoiceService.CreateInvoice stubClient
      { repo := NewInvoiceMemRepository, remote := (), calls := [] }
      [{ ProductID := "", Quantity := 1 }] "n1" 1 1).1 = .error .ErrInvalidQuantity := rfl
  rw [herr] at hinv
  cases hinv

theorem Validate_snapshot {σ : Type} (c : StockClient σ) (remote : σ) (items : List InvoiceItem)
    (newID : String) (number : Int) (created updated : Time)
    (hne : items ≠ []) (hpos : 0 < number) (hq : ∀ item ∈ items, 0 < item.Quantity) :
    (({ ID := newID, Number := number, Status := StatusOpen,
        Items := items.map (snapshot c remote), CreatedAt := created,
        UpdatedAt := updated } : Invoice).Validate = none ↔
      ∀ item ∈ items, item.ProductID ≠ "") ∧
    (({ ID := newID, Number := number, Status := StatusOpen,
        Items := items.map (snapshot c remote), CreatedAt := created,
        UpdatedAt := updated } : Invoice).Validate = none ∨
     ({ ID := newID, Number := number, Status := StatusOpen,
        Items := items.map (snapshot c remote), CreatedAt := created,
        UpdatedAt := updated } : Invoice).Validate = some .ErrInvalidQuantity) := by
  have h1 : ¬ number ≤ 0 := not_le.mpr hpos
  have h2 : ¬ (items.map (snapshot c remote)).length = 0 := by
    simpa using hne
  simp only [Invoice.Validate, h1, if_false, h2]
  exact validateItems_snapshot c remote items hq

/-- C9, amended: on a repository whose counter is between 0 and `2 ^ 63 - 2`,
`CreateInvoice` returns an invoice exactly when the list is not empty and every item
has a positive quantity, a product lookup that succeeds, a quantity that is at most
the balance looked up, and a product ID that is not empty.  On any repository it
fails with `ErrInvoiceNoItems` for the empty list, and with `ErrInvalidQuantity`
when the first item that is not accepted has a quantity that is not positive. -/
theorem C9_create_succeeds_iff {σ : Type} (c : StockClient σ) (s : ServiceState σ)
    (items : List InvoiceItem) (newID : String) (created updated : Time) :
    (0 ≤ s.repo.lastNumber → s.repo.lastNumber < 2 ^ 63 - 1 →
      ((∃ inv, (InvoiceService.CreateInvoice c s items newID created updated).1 = .ok inv) ↔
        (items ≠ [] ∧ ∀ item ∈ items,
          (0 < item.Quantity ∧
            ∃ product, c.GetProduct item.ProductID s.remote = .ok product ∧
              item.Quantity ≤ product.Balance) ∧
          item.ProductID ≠ ""))) ∧
    (items = [] →
      (InvoiceService.CreateInvoice c s items newID created updated).1 =
        .error .ErrInvoiceNoItems) ∧
    (∀ pre item post, items = pre ++ item :: post →
      (∀ x ∈ pre, 0 < x.Quantity ∧
        ∃ product, c.GetProduct x.ProductID s.remote = .ok product ∧
          x.Quantity ≤ product.Balance) →
      item.Quantity ≤ 0 →
        (InvoiceService.CreateInvoice c s items newID created updated).1 =
          .error .ErrInvalidQuantity) := by
  refine ⟨?_, ?_, ?_⟩
  · intro h0 h1
    by_cases hne : items = []
    · subst hne
      rw [CreateInvoice_empty]
      simp
    · by_cases hacc : ∀ item ∈ items, itemAccepted c s.remote item
      · have hq : ∀ item ∈ items, 0 < item.Quantity := fun x hx => (hacc x hx).1
        have hpos : 0 < s.repo.lastNumber + 1 := by omega
        obtain ⟨hv1, hv2⟩ := Validate_snapshot c s.remote items newID (s.repo.lastNumber + 1)
          created updated hne hpos hq
        rw [CreateInvoice_accepted c s items newID created updated hne hacc,
          wrapInt_succ _ h0 h1]
        constructor
        · rintro ⟨inv, hinv⟩
          refine ⟨hne, fun item hitem => ⟨hacc item hitem, ?_⟩⟩
          apply hv1.mp _ item hitem
          rcases hv2 with hv | hv
          · exact hv
          · rw [hv] at hinv
            simp at hinv
        · rintro ⟨_, hall⟩
          have hv := hv1.mpr (fun item hitem => (hall item hitem).2)
          rw [hv]
          exact ⟨_, rfl⟩
      · obtain ⟨err, ids, hr⟩ := CreateInvoice_rejected c s items newID created updated hacc
        rw [hr]
        constructor
        · rintro ⟨inv, hinv⟩
          simp at hinv
        · rintro ⟨_, hall⟩
          exact absurd (fun item hitem => (hall item hitem).1) hacc
  · intro hne
    subst hne
    rw [CreateInvoice_empty]
  · intro pre item post hitems hpre hq
    subst hitems
    have hlen : ¬ (pre ++ item :: post).length = 0 := by simp
    have hloop := enrichItems_invalid c s.remote pre item post [] s.calls hpre hq
    unfold InvoiceService.CreateInvoice
    rw [if_neg hlen]
    cases hr : InvoiceService.enrichItems c s.remote (pre ++ item :: post) [] s.calls with
    | mk res calls =>
      rw [hr] at hloop
      simp only at hloop
      subst hloop
      rfl

/-- C9 (amended) on `sampleState`: 4 units of product `a`, of balance 5, make an
invoice. -/
theorem C9_create_succeeds_iff_witness :
    (0 : Int) ≤ sampleState.repo.lastNumber ∧ sampleState.repo.lastNumber < 2 ^ 63 - 1 ∧
    ∃ inv, (InvoiceService.CreateInvoice (directClient sampleRoute sampleClock) sampleState
      [{ ProductID := "a", Quantity := 4 }] "n1" 1 1).1 = .ok inv :=
  ⟨by decide, by decide,
    (((C9_create_succeeds_iff (directClient sampleRoute sampleClock) sampleState
      [{ ProductID := "a", Quantity := 4 }] "n1" 1 1).1 (by decide) (by decide)).mpr
      ⟨by simp, fun item hitem => by
        simp only [List.mem_singleton] at hitem
        subst hitem
        exact ⟨⟨by decide, ⟨"a", "A", "first", 5⟩, rfl, by decide⟩, by decide⟩⟩)⟩

theorem reserveCalls_lookups (calls : List ClientCall) (ids : List String) :
    reserveCalls (calls ++ ids.map ClientCall.GetProduct) = reserveCalls calls := by
  induction calls with
  | nil =>
    induction ids with
    | nil => rfl
    | cons id rest ih => simpa [reserveCalls] using ih
  | cons call rest ih =>
    cases call <;> simp [reserveCalls, ih]

/-- `CreateInvoice` on one item that asks for more than the balance looked up. -/
theorem CreateInvoice_insufficient {σ : Type} (c : StockClient σ) (s : ServiceState σ)
    (item : InvoiceItem) (product : ProductInfo) (newID : String) (created updated : Time)
    (hq : 0 < item.Quantity) (hp : c.GetProduct item.ProductID s.remote = .ok product)
    (hb : product.Balance < item.Quantity) :
    InvoiceService.CreateInvoice c s [item] newID created updated =
      (.error (.errorf ("produto " ++ product.Code ++ " com estoque insuficiente (disponível: "
          ++ toString product.Balance ++ ", solicitado: " ++ toString item.Quantity ++ ")")),
        { s with calls := s.calls ++ [.GetProduct item.ProductID] }) := by
  have h1 : ¬ item.Quantity ≤ 0 := not_le.mpr hq
  simp [InvoiceService.CreateInvoice, InvoiceService.enrichItems, h1, hp, hb]

/-- C10: whenever `CreateInvoice` returns an error, the invoices in the store are
exactly those held before the call; and whether it fails or succeeds, the only calls
it makes to the client are product lookups (no `ReserveProducts`), so that the state
of the stock service is the one before the call.  For instance, one item asking for
more than the balance looked up (4 against 2) fails with the insufficient-stock error
and leaves the repository as it was. -/
theorem C10_failed_create_persists_nothing {σ : Type} (c : StockClient σ) (s : ServiceState σ)
    (items : List InvoiceItem) (newID : String) (created updated : Time) :
    (∀ err, (InvoiceService.CreateInvoice c s items newID created updated).1 = .error err →
      (InvoiceService.CreateInvoice c s items newID created updated).2.repo.invoices
        = s.repo.invoices ∧
      ∀ id, (InvoiceService.CreateInvoice c s items newID created updated).2.repo.FindByID id
        = s.repo.FindByID id) ∧
    (∃ ids : List String,
      (InvoiceService.CreateInvoice c s items newID created updated).2.calls =
        s.calls ++ ids.map ClientCall.GetProduct) ∧
    reserveCalls (InvoiceService.CreateInvoice c s items newID created updated).2.calls =
      reserveCalls s.calls ∧
    (InvoiceService.CreateInvoice c s items newID created updated).2.remote = s.remote ∧
    (∀ item product, items = [item] → 0 < item.Quantity →
      c.GetProduct item.ProductID s.remote = .ok product → product.Balance < item.Quantity →
        (InvoiceService.CreateInvoice c s items newID created updated).1 =
          .error (.errorf ("produto " ++ product.Code ++ " com estoque insuficiente (disponível: "
            ++ toString product.Balance ++ ", solicitado: " ++ toString item.Quantity ++ ")")) ∧
        (InvoiceService.CreateInvoice c s items newID created updated).2.repo = s.repo) := by
  have hmain :
      (∀ err, (InvoiceService.CreateInvoice c s items newID created updated).1 = .error err →
        (InvoiceService.CreateInvoice c s items newID created updated).2.repo.invoices
          = s.repo.invoices) ∧
      (∃ ids : List String,
        (InvoiceService.CreateInvoice c s items newID created updated).2.calls =
          s.calls ++ ids.map ClientCall.GetProduct) ∧
      (InvoiceService.CreateInvoice c s items newID created updated).2.remote = s.remote := by
    by_cases hne : items = []
    · subst hne
      rw [CreateInvoice_empty]
      exact ⟨fun _ _ => rfl, ⟨[], by simp⟩, rfl⟩
    · by_cases hacc : ∀ item ∈ items, itemAccepted c s.remote item
      · rw [CreateInvoice_accepted c s items newID created updated hne hacc]
        generalize Invoice.mk newID (wrapInt (s.repo.lastNumber + 1)) StatusOpen
          (items.map (snapshot c s.remote)) created updated none = invoice
        cases hv : invoice.Validate with
        | some e =>
          exact ⟨fun _ _ => rfl, ⟨items.map (fun item => item.ProductID), by simp⟩, rfl⟩
        | none =>
          refine ⟨fun err h => ?_, ⟨items.map (fun item => item.ProductID), by simp⟩, rfl⟩
          simp at h
      · obtain ⟨err, ids, hr⟩ := CreateInvoice_rejected c s items newID created updated hacc
        rw [hr]
        exact ⟨fun _ _ => rfl, ⟨ids, rfl⟩, rfl⟩
  obtain ⟨h1, ⟨ids, h2⟩, h3⟩ := hmain
  refine ⟨?_, ⟨ids, h2⟩, ?_, h3, ?_⟩
  · intro err herr
    refine ⟨h1 err herr, fun id => ?_⟩
    simp only [InvoiceMemRepository.FindByID, h1 err herr]
  · rw [h2]
    exact reserveCalls_lookups s.calls ids
  · intro item product hitems hq hp hb
    subst hitems
    rw [CreateInvoice_insufficient c s item product newID created updated hq hp hb]
    exact ⟨rfl, rfl⟩

/-- C10 on `scenarioState`: product `p` has balance 2, an item of quantity 4 is
refused and the fresh repository stays empty. -/
theorem C10_failed_create_persists_nothing_witness :
    (InvoiceService.CreateInvoice (directClient sampleRoute sampleClock) scenarioState
      [{ ProductID := "p", Quantity := 4 }] "n1" 1 1).1 =
      .error (.errorf "produto P com estoque insuficiente (disponível: 2, solicitado: 4)") ∧
    (InvoiceService.CreateInvoice (directClient sampleRoute sampleClock) scenarioState
      [{ ProductID := "p", Quantity := 4 }] "n1" 1 1).2.repo.invoices = [] ∧
    (InvoiceService.CreateInvoice (directClient sampleRoute sampleClock) scenarioState
      [{ ProductID := "p", Quantity := 4 }] "n1" 1 1).2.remote = scenarioRepo :=
  ⟨rfl,
    ((C10_failed_create_persists_nothing (directClient sampleRoute sampleClock) scenarioState
      [{ ProductID := "p", Quantity := 4 }] "n1" 1 1).1 _ rfl).1,
    (C10_failed_create_persists_nothing (directClient sampleRoute sampleClock) scenarioState
      [{ ProductID := "p", Quantity := 4 }] "n1" 1 1).2.2.2.1⟩

end Billing

namespace Billing

/-- C11: when `CreateInvoice` returns an invoice, the repository holds that invoice
under its ID, its status is `StatusOpen`, its closed timestamp is unset, and its
line items follow the input item by item: as many, in the same order, each with
the product ID and the quantity of the input item and with the code and the
description that `GetProduct` returned for that product. -/
theorem C11_created_invoice_snapshot {σ : Type} (c : StockClient σ) (s : ServiceState σ)
    (items : List InvoiceItem) (newID : String) (created updated : Time) (inv : Invoice)
    (h : (InvoiceService.CreateInvoice c s items newID created updated).1 = .ok inv) :
    (InvoiceService.CreateInvoice c s items newID created updated).2.repo.FindByID inv.ID
      = .ok inv ∧
    InvoiceService.GetInvoice (InvoiceService.CreateInvoice c s items newID created updated).2
      inv.ID = .ok inv ∧
    inv.Status = StatusOpen ∧
    inv.ClosedAt = none ∧
    inv.Items.length = items.length ∧
    ∀ (i : Nat) (item : InvoiceItem), items[i]? = some item →
      ∃ product, c.GetProduct item.ProductID s.remote = .ok product ∧
        inv.Items[i]? = some { ProductID := item.ProductID, ProductCode := product.Code,
                               Description := product.Description, Quantity := item.Quantity } := by
  by_cases hne : items = []
  · subst hne
    rw [CreateInvoice_empty] at h
    simp at h
  · by_cases hacc : ∀ item ∈ items, itemAccepted c s.remote item
    · rw [CreateInvoice_accepted c s items newID created updated hne hacc] at h ⊢
      have hitems : (Invoice.mk newID (wrapInt (s.repo.lastNumber + 1)) StatusOpen
          (items.map (snapshot c s.remote)) created updated none).Items
            = items.map (snapshot c s.remote) := rfl
      have hid : (Invoice.mk newID (wrapInt (s.repo.lastNumber + 1)) StatusOpen
          (items.map (snapshot c s.remote)) created updated none).ID = newID := rfl
      have hst : (Invoice.mk newID (wrapInt (s.repo.lastNumber + 1)) StatusOpen
          (items.map (snapshot c s.remote)) created updated none).Status = StatusOpen := rfl
      have hcl : (Invoice.mk newID (wrapInt (s.repo.lastNumber + 1)) StatusOpen
          (items.map (snapshot c s.remote)) created updated none).ClosedAt = none := rfl
      generalize Invoice.mk newID (wrapInt (s.repo.lastNumber + 1)) StatusOpen
          (items.map (snapshot c s.remote)) created updated none = invoice
          at h hitems hid hst hcl ⊢
      cases hv : invoice.Validate with
      | some err =>
        rw [hv] at h
        simp at h
      | none =>
        rw [hv] at h
        simp only [Except.ok.injEq] at h
        subst h
        refine ⟨?_, ?_, hst, hcl, ?_, ?_⟩
        · simp [InvoiceMemRepository.FindByID, hid, GoMap.get_set_self]
        · simp [InvoiceService.GetInvoice, InvoiceMemRepository.FindByID, hid,
            GoMap.get_set_self]
        · rw [hitems]
          simp
        · intro i item hi
          have hmem : item ∈ items := List.getElem?_mem hi
          obtain ⟨_, product, hp, _⟩ := hacc item hmem
          refine ⟨product, hp, ?_⟩
          rw [hitems, List.getElem?_map, hi, Option.map_some',
            snapshot_of_ok c s.remote item product hp]
    · obtain ⟨err, ids, hr⟩ := CreateInvoice_rejected c s items newID created updated hacc
      rw [hr] at h
      simp at h

/-- C11 on `sampleState`: 4 units of product `a` make an open invoice whose one
line carries the code and the description of `a`. -/
theorem C11_created_invoice_snapshot_witness :
    (InvoiceService.CreateInvoice (directClient sampleRoute sampleClock) sampleState
      [{ ProductID := "a", Quantity := 4 }] "n1" 1 2).1 =
      .ok { ID := "n1", Number := 4, Status := StatusOpen,
            Items := [{ ProductID := "a", ProductCode := "A", Description := "first",
                        Quantity := 4 }],
            CreatedAt := 1, UpdatedAt := 2 } ∧
    (InvoiceService.CreateInvoice (directClient sampleRoute sampleClock) sampleState
      [{ ProductID := "a", Quantity := 4 }] "n1" 1 2).2.repo.FindByID "n1" =
      .ok { ID := "n1", Number := 4, Status := StatusOpen,
            Items := [{ ProductID := "a", ProductCode := "A", Description := "first",
                        Quantity := 4 }],
            CreatedAt := 1, UpdatedAt := 2 } :=
  ⟨rfl,
    (C11_created_invoice_snapshot (directClient sampleRoute sampleClock) sampleState
      [{ ProductID := "a", Quantity := 4 }] "n1" 1 2
      { ID := "n1", Number := 4, Status := StatusOpen,
        Items := [{ ProductID := "a", ProductCode := "A", Description := "first",
                    Quantity := 4 }],
        CreatedAt := 1, UpdatedAt := 2 } rfl).1⟩

end Billing

/-! ### Batches over distinct products -/

namespace Stock

theorem debited_eq_zero (reqs : List ReservationRequest) :
    ∀ (resps : List ReservationResponse) (pid : String),
      pid ∉ reqs.map (fun req => req.ProductID) → debited reqs resps pid = 0 := by
  induction reqs with
  | nil => intro resps pid _; exact debited_nil resps pid
  | cons req rest ih =>
    intro resps pid h
    cases resps with
    | nil => simp [debited]
    | cons resp tail =>
      simp only [List.map_cons, List.mem_cons, not_or] at h
      have hne : ¬ req.ProductID = pid := fun e => h.1 e.symm
      rw [debited_cons, ih tail pid h.2]
      simp [debitOf, hne]

/-- One turn of the loop leaves every product other than the one of the request as
it was. -/
theorem reserveOne_get_other (r : ProductMemRepository) (req : ReservationRequest) (now : Time)
    (hwf : r.WF) (pid : String) (hne : pid ≠ req.ProductID) :
    (ProductService.reserveOne r req now).2.products.get pid = r.products.get pid := by
  cases h : r.products.get req.ProductID with
  | none => rw [reserveOne_notfound r req now h]
  | some p =>
    by_cases hq : 0 < req.Quantity ∧ req.Quantity ≤ p.Balance
    · rw [reserveOne_ok r req now p hwf h hq.1 hq.2]
      simp [ProductMemRepository.mutate, GoMap.get_set_ne _ _ _ _ hne]
    · rw [(reserveOne_denied r req now p h hq).2]

/-- The loop leaves every product that no request names as it was. -/
theorem reserveLoop_get_other (clock : Nat → Time) (reqs : List ReservationRequest) :
    ∀ (k : Nat) (r : ProductMemRepository) (pid : String), r.WF →
      pid ∉ reqs.map (fun req => req.ProductID) →
        (ProductService.reserveLoop clock k reqs r []).2.products.get pid
          = r.products.get pid := by
  induction reqs with
  | nil => intro k r pid _ _; simp [ProductService.reserveLoop]
  | cons req rest ih =>
    intro k r pid hwf h
    simp only [List.map_cons, List.mem_cons, not_or] at h
    rw [reserveLoop_cons_snd,
      ih (k + 1) _ pid (reserveOne_spec r req (clock k) hwf).1 h.2,
      reserveOne_get_other r req (clock k) hwf pid h.1]

/-- A batch over distinct products, each in the repository with a balance that
covers its positive quantity: every response is a success, and every product of the
batch ends with its balance less the quantity asked. -/
theorem reserveLoop_all_ok (clock : Nat → Time) (reqs : List ReservationRequest) :
    ∀ (k : Nat) (r : ProductMemRepository), r.WF →
      (reqs.map (fun req => req.ProductID)).Nodup →
      (∀ req ∈ reqs, ∃ b, balanceOf r req.ProductID = some b ∧ 0 < req.Quantity ∧
        req.Quantity ≤ b) →
        (∀ resp ∈ (ProductService.reserveLoop clock k reqs r []).1, resp.Success = true) ∧
        (∀ req ∈ reqs, ∀ b, balanceOf r req.ProductID = some b →
          balanceOf (ProductService.reserveLoop clock k reqs r []).2 req.ProductID
            = some (b - req.Quantity)) := by
  induction reqs with
  | nil =>
    intro k r _ _ _
    simp [ProductService.reserveLoop]
  | cons req rest ih =>
    intro k r hwf hnd hall
    simp only [List.map_cons, List.nodup_cons] at hnd
    obtain ⟨hwf1, hs, _, hbal⟩ := reserveOne_spec r req (clock k) hwf
    have hhead : (ProductService.reserveOne r req (clock k)).1.Success = true :=
      hs.mpr (hall req (List.mem_cons_self _ _))
    have hother : ∀ x ∈ rest,
        balanceOf (ProductService.reserveOne r req (clock k)).2 x.ProductID
          = balanceOf r x.ProductID := by
      intro x hx
      have hne : x.ProductID ≠ req.ProductID := by
        intro e
        apply hnd.1
        rw [← e]
        exact List.mem_map_of_mem (fun req => req.ProductID) hx
      unfold balanceOf
      rw [reserveOne_get_other r req (clock k) hwf x.ProductID hne]
    have hrest : ∀ x ∈ rest, ∃ b,
        balanceOf (ProductService.reserveOne r req (clock k)).2 x.ProductID = some b ∧
          0 < x.Quantity ∧ x.Quantity ≤ b := by
      intro x hx
      rw [hother x hx]
      exact hall x (List.mem_cons_of_mem _ hx)
    obtain ⟨ih1, ih2⟩ := ih (k + 1) _ hwf1 hnd.2 hrest
    rw [reserveLoop_cons_fst, reserveLoop_cons_snd]
    constructor
    · intro resp hresp
      rcases List.mem_cons.mp hresp with h | h
      · rw [h]
        exact hhead
      · exact ih1 resp h
    · intro x hx b hb
      rcases List.mem_cons.mp hx with h | h
      · subst h
        have hkeep := reserveLoop_get_other clock rest (k + 1) _ x.ProductID hwf1 hnd.1
        unfold balanceOf
        rw [hkeep]
        have hb1 := hbal x.ProductID
        unfold balanceOf at hb1 hb
        rw [hb1, hb]
        simp [debitOf, hhead]
      · apply ih2 x h
        rw [hother x h]
        exact hb

end Stock

/-! ### Creating and closing against the stock service -/

namespace Billing

theorem checkResponses_all_ok (resps : List Stock.ReservationResponse)
    (h : ∀ resp ∈ resps, resp.Success = true) : checkResponses resps = none := by
  induction resps with
  | nil => rfl
  | cons res rest ih =>
    have h1 : res.Success = true := h res (List.mem_cons_self _ _)
    simp only [checkResponses, h1, Bool.not_true, Bool.false_eq_true, if_false]
    exact ih (fun x hx => h x (List.mem_cons_of_mem _ hx))

theorem checkResponses_first_failure (pre : List Stock.ReservationResponse)
    (res : Stock.ReservationResponse) (post : List Stock.ReservationResponse)
    (hpre : ∀ x ∈ pre, x.Success = true) (hres : res.Success = false) :
    checkResponses (pre ++ res :: post) =
      some (.errorf ("falha ao reservar produto " ++ res.ProductID ++ ": " ++ res.ErrorMessage)) := by
  induction pre with
  | nil => simp [checkResponses, hres]
  | cons x rest ih =>
    have h1 : x.Success = true := hpre x (List.mem_cons_self _ _)
    simp only [List.cons_append, checkResponses, h1, Bool.not_true, Bool.false_eq_true, if_false]
    exact ih (fun y hy => hpre y (List.mem_cons_of_mem _ hy))

theorem toRequests_snapshot {σ : Type} (c : StockClient σ) (remote : σ)
    (items : List InvoiceItem) :
    toRequests (items.map (snapshot c remote)) = toRequests items := by
  simp [toRequests, snapshot_ProductID, snapshot_Quantity]

theorem toRequests_ids (items : List InvoiceItem) :
    (toRequests items).map (fun req => req.ProductID) = items.map (fun item => item.ProductID) := by
  simp [toRequests]

/-- What a `CreateInvoice` that returned an invoice tells: every item was accepted,
and the invoice is the new one, holding the line items of the input. -/
theorem CreateInvoice_ok_inv {σ : Type} (c : StockClient σ) (s : ServiceState σ)
    (items : List InvoiceItem) (newID : String) (created updated : Time) (inv : Invoice)
    (h : (InvoiceService.CreateInvoice c s items newID created updated).1 = .ok inv) :
    (∀ item ∈ items, itemAccepted c s.remote item) ∧
    inv.ID = newID ∧ inv.Status = StatusOpen ∧ inv.ClosedAt = none ∧
    inv.Items = items.map (snapshot c s.remote) ∧
    (InvoiceService.CreateInvoice c s items newID created updated).2.remote = s.remote ∧
    (InvoiceService.CreateInvoice c s items newID created updated).2.repo.invoices.get newID
      = some inv := by
  by_cases hne : items = []
  · subst hne
    rw [CreateInvoice_empty] at h
    simp at h
  · by_cases hacc : ∀ item ∈ items, itemAccepted c s.remote item
    · rw [CreateInvoice_accepted c s items newID created updated hne hacc] at h ⊢
      cases hv : (Invoice.mk newID (wrapInt (s.repo.lastNumber + 1)) StatusOpen
          (items.map (snapshot c s.remote)) created updated none).Validate with
      | some err =>
        rw [hv] at h
        simp at h
      | none =>
        rw [hv] at h
        simp only [Except.ok.injEq] at h
        subst h
        exact ⟨hacc, rfl, rfl, rfl, rfl, rfl, GoMap.get_set_self _ _ _⟩
    · obtain ⟨err, ids, hr⟩ := CreateInvoice_rejected c s items newID created updated hacc
      rw [hr] at h
      simp at h

theorem itemAccepted_direct (route : String → ProductRoute) (clock : Nat → Time)
    (r : Stock.ProductMemRepository) (item : InvoiceItem)
    (hroute : route item.ProductID = .product item.ProductID)
    (h : itemAccepted (directClient route clock) r item) :
    ∃ b, Stock.balanceOf r item.ProductID = some b ∧ 0 < item.Quantity ∧ item.Quantity ≤ b := by
  obtain ⟨hq, product, hp, hb⟩ := h
  simp only [directClient, StockHTTPClient.GetProduct, workingGetNet, hroute,
    Stock.ProductService.GetProduct, Stock.ProductMemRepository.FindByID] at hp
  cases hg : r.products.get item.ProductID with
  | none => simp [hg] at hp
  | some p =>
    simp [hg] at hp
    refine ⟨p.Balance, by simp [Stock.balanceOf, hg], hq, ?_⟩
    rw [← hp] at hb
    exact hb

/-- Creating and closing over product IDs that reach the stock service as they are.
With the client in front of a stock service that it always reaches, on a stock
repository whose products are stored under their IDs, and for items whose product
IDs arrive on the route `/{id}` as themselves:
when `CreateInvoice` returns an invoice for items of pairwise distinct product IDs,
and `PrintInvoice` of that invoice runs in a state that holds the invoice and the
same stock, then `PrintInvoice` returns the invoice closed, with its closed
timestamp set, that invoice is the one stored, every product of the items ends with
its balance less the quantity of its item, and every other product is as it was. -/
theorem create_then_print_plain_ids (route : String → ProductRoute) (clock : Nat → Time)
    (s s1 : ServiceState Stock.ProductMemRepository) (items : List InvoiceItem)
    (newID : String) (created updated now : Time) (inv : Invoice)
    (hwf : s.remote.WF)
    (hroute : ∀ item ∈ items, route item.ProductID = .product item.ProductID)
    (hnd : (items.map (fun item => item.ProductID)).Nodup)
    (hcreate : (InvoiceService.CreateInvoice (directClient route clock) s items newID created
      updated).1 = .ok inv)
    (hrem : s1.remote = s.remote)
    (hstored : s1.repo.FindByID inv.ID = .ok inv) :
    ∃ inv', (InvoiceService.PrintInvoice (directClient route clock) s1 inv.ID now).1 = .ok inv' ∧
      inv'.Status = StatusClosed ∧
      inv'.ClosedAt = some now ∧
      inv'.ID = inv.ID ∧ inv'.Number = inv.Number ∧ inv'.Items = inv.Items ∧
      (InvoiceService.PrintInvoice (directClient route clock) s1 inv.ID now).2.repo.FindByID inv.ID
        = .ok inv' ∧
      (∀ item ∈ items, ∃ p p',
        s.remote.FindByID item.ProductID = .ok p ∧
        (InvoiceService.PrintInvoice (directClient route clock) s1 inv.ID now).2.remote.FindByID
          item.ProductID = .ok p' ∧
        p'.Balance = p.Balance - item.Quantity) ∧
      (∀ pid, pid ∉ items.map (fun item => item.ProductID) →
        (InvoiceService.PrintInvoice (directClient route clock) s1 inv.ID now).2.remote.products.get pid
          = s.remote.products.get pid) := by
  obtain ⟨hacc, _, hst, _, hitems, _, _⟩ :=
    CreateInvoice_ok_inv (directClient route clock) s items newID created updated inv hcreate
  have hinv := (InvoiceMemRepository.FindByID_eq_ok _ _ _).mp hstored
  have hnd' : ((toRequests items).map (fun req => req.ProductID)).Nodup := by
    rw [toRequests_ids]
    exact hnd
  have hall : ∀ req ∈ toRequests items, ∃ b,
      Stock.balanceOf s.remote req.ProductID = some b ∧ 0 < req.Quantity ∧ req.Quantity ≤ b := by
    intro req hreq
    simp only [toRequests, List.mem_map] at hreq
    obtain ⟨item, hitem, hreq⟩ := hreq
    subst hreq
    exact itemAccepted_direct route clock s.remote item (hroute item hitem) (hacc item hitem)
  obtain ⟨hok, hbal⟩ := Stock.reserveLoop_all_ok clock (toRequests items) 0 s.remote hwf hnd' hall
  have hreserve : (directClient route clock).ReserveProducts inv.Items s1.remote =
      (checkResponses (Stock.ProductService.reserveLoop clock 0 (toRequests items) s.remote []).1,
        (Stock.ProductService.reserveLoop clock 0 (toRequests items) s.remote []).2) := by
    simp only [directClient, Stock.ProductService.ReserveMultipleProducts, hitems,
      toRequests_snapshot, hrem]
  have hnone : ((directClient route clock).ReserveProducts inv.Items s1.remote).1 = none := by
    rw [hreserve]
    exact checkResponses_all_ok _ hok
  rw [PrintInvoice_ok (directClient route clock) s1 inv.ID inv now hinv rfl hst hnone, hreserve]
  refine ⟨_, rfl, rfl, rfl, rfl, rfl, rfl, ?_, ?_, ?_⟩
  · simp [InvoiceMemRepository.FindByID, InvoiceMemRepository.mutate, GoMap.get_set_self]
  · intro item hitem
    obtain ⟨b, hb, _, _⟩ :=
      itemAccepted_direct route clock s.remote item (hroute item hitem) (hacc item hitem)
    obtain ⟨p, hp, hpb⟩ := (Stock.balanceOf_eq_some _ _ _).mp hb
    have hmem : ({ ProductID := item.ProductID, Quantity := item.Quantity } :
        Stock.ReservationRequest) ∈ toRequests items := by
      simp only [toRequests, List.mem_map]
      exact ⟨item, hitem, rfl⟩
    have hafter := hbal _ hmem b hb
    obtain ⟨p', hp', hpb'⟩ := (Stock.balanceOf_eq_some _ _ _).mp hafter
    exact ⟨p, p', hp, hp', by rw [hpb', hpb]⟩
  · intro pid hpid
    apply Stock.reserveLoop_get_other clock (toRequests items) 0 s.remote pid hwf
    rw [toRequests_ids]
    exact hpid

/-- C12, at the input where the code breaks it.  Product `p` has balance 10 and the
items are 3 units of `p` and 3 units of `p?x=1`, two distinct product IDs.
`GetProduct` pastes each ID into the URL as it is, so the lookup of `p?x=1` is a GET
of `/api/products/p` with a query and returns product `p`: `CreateInvoice` returns
an open invoice with both lines.  `ReserveProducts` sends the IDs in the JSON body,
where `p?x=1` names no product: with the stock untouched since the creation,
`PrintInvoice` fails, after `p` has been debited by 3, and the invoice stays open. -/
theorem C12_create_succeeds_print_fails :
    (["p", "p?x=1"] : List String).Nodup ∧
    sampleRoute "p" = .product "p" ∧ sampleRoute "p?x=1" = .product "p" ∧
    (InvoiceService.CreateInvoice (directClient sampleRoute sampleClock) tenState
      [{ ProductID := "p", Quantity := 3 }, { ProductID := "p?x=1", Quantity := 3 }] "n1" 1 1).1 =
      .ok { ID := "n1", Number := 1, Status := StatusOpen,
            Items := [{ ProductID := "p", ProductCode := "P", Description := "plenty",
                        Quantity := 3 },
                      { ProductID := "p?x=1", ProductCode := "P", Description := "plenty",
                        Quantity := 3 }],
            CreatedAt := 1, UpdatedAt := 1 } ∧
    (InvoiceService.CreateInvoice (directClient sampleRoute sampleClock) tenState
      [{ ProductID := "p", Quantity := 3 }, { ProductID := "p?x=1", Quantity := 3 }] "n1" 1
      1).2.remote = tenRepo ∧
    (InvoiceService.PrintInvoice (directClient sampleRoute sampleClock)
      (InvoiceService.CreateInvoice (directClient sampleRoute sampleClock) tenState
        [{ ProductID := "p", Quantity := 3 }, { ProductID := "p?x=1", Quantity := 3 }] "n1" 1 1).2
      "n1" 50).1 =
      .error (.wrapf "erro ao reservar produtos: "
        (.errorf "falha ao reservar produto p?x=1: produto não encontrado")) ∧
    (InvoiceService.PrintInvoice (directClient sampleRoute sampleClock)
      (InvoiceService.CreateInvoice (directClient sampleRoute sampleClock) tenState
        [{ ProductID := "p", Quantity := 3 }, { ProductID := "p?x=1", Quantity := 3 }] "n1" 1 1).2
      "n1" 50).2.remote.FindByID "p" = .ok ⟨"p", "P", "plenty", 7, 0, 100⟩ ∧
    (InvoiceService.PrintInvoice (directClient sampleRoute sampleClock)
      (InvoiceService.CreateInvoice (directClient sampleRoute sampleClock) tenState
        [{ ProductID := "p", Quantity := 3 }, { ProductID := "p?x=1", Quantity := 3 }] "n1" 1 1).2
      "n1" 50).2.repo.FindByID "n1" =
      .ok { ID := "n1", Number := 1, Status := StatusOpen,
            Items := [{ ProductID := "p", ProductCode := "P", Description := "plenty",
                        Quantity := 3 },
                      { ProductID := "p?x=1", ProductCode := "P", Description := "plenty",
                        Quantity := 3 }],
            CreatedAt := 1, UpdatedAt := 1 } :=
  ⟨by decide, rfl, rfl, rfl, rfl, rfl, rfl, rfl⟩

end Billing

/-! ### Batches of two items -/

namespace Stock

/-- One turn of the loop on a stored product whose balance does not cover a positive
quantity, or with a quantity that is not positive: the response, and the repository
as it was. -/
theorem reserveOne_denied_resp (r : ProductMemRepository) (req : ReservationRequest)
    (now : Time) (p : Product) (h : r.products.get req.ProductID = some p)
    (hq : ¬ (0 < req.Quantity ∧ req.Quantity ≤ p.Balance)) :
    ProductService.reserveOne r req now =
      ({ Success := false, ProductID := req.ProductID, NewBalance := p.Balance,
         ErrorMessage := if req.Quantity ≤ 0 then DomainError.ErrInvalidQuantity.Error
                         else DomainError.ErrInsufficientBalance.Error }, r) := by
  have hf : r.FindByID req.ProductID = .ok p := by simp [ProductMemRepository.FindByID, h]
  rcases le_or_lt req.Quantity 0 with h0 | h0
  · simp only [ProductService.reserveOne, hf, Reserve_invalid p req.Quantity now h0, h0, if_true,
      ProductMemRepository.mutate_same r _ p h]
  · have hb : p.Balance < req.Quantity := by
      by_contra hc
      exact hq ⟨h0, not_lt.mp hc⟩
    have h0' : ¬ req.Quantity ≤ 0 := not_le.mpr h0
    simp only [ProductService.reserveOne, hf, Reserve_insufficient p req.Quantity now h0 hb, h0',
      if_false, ProductMemRepository.mutate_same r _ p h]

/-- A batch of two items on distinct stored products, the first covered by its
balance and the second denied: the first debit stays. -/
theorem reserveLoop_pair_denied (clock : Nat → Time) (r : ProductMemRepository)
    (reqA reqB : ReservationRequest) (pa pb : Product) (hwf : r.WF)
    (hne : reqA.ProductID ≠ reqB.ProductID)
    (ha : r.products.get reqA.ProductID = some pa) (hb : r.products.get reqB.ProductID = some pb)
    (hqa : 0 < reqA.Quantity) (hba : reqA.Quantity ≤ pa.Balance)
    (hden : ¬ (0 < reqB.Quantity ∧ reqB.Quantity ≤ pb.Balance)) :
    ProductService.reserveLoop clock 0 [reqA, reqB] r [] =
      ([{ Success := true, ProductID := reqA.ProductID,
          NewBalance := pa.Balance - reqA.Quantity },
        { Success := false, ProductID := reqB.ProductID, NewBalance := pb.Balance,
          ErrorMessage := if reqB.Quantity ≤ 0 then DomainError.ErrInvalidQuantity.Error
                          else DomainError.ErrInsufficientBalance.Error }],
       r.mutate reqA.ProductID
         { pa with Balance := pa.Balance - reqA.Quantity, UpdatedAt := clock 0 }) := by
  have h1 := reserveOne_ok r reqA (clock 0) pa hwf ha hqa hba
  have hgetB : (r.mutate reqA.ProductID
      { pa with Balance := pa.Balance - reqA.Quantity, UpdatedAt := clock 0 }).products.get
        reqB.ProductID = some pb := by
    simp only [ProductMemRepository.mutate]
    rw [GoMap.get_set_ne _ _ _ _ (Ne.symm hne)]
    exact hb
  have h2 := reserveOne_denied_resp _ reqB (clock 1) pb hgetB hden
  simp only [ProductService.reserveLoop, h1, h2]
  rfl

/-- A batch of two items on distinct stored products, both covered by their
balances: both are debited. -/
theorem reserveLoop_pair_ok (clock : Nat → Time) (r : ProductMemRepository)
    (reqA reqB : ReservationRequest) (pa pb : Product) (hwf : r.WF)
    (hne : reqA.ProductID ≠ reqB.ProductID)
    (ha : r.products.get reqA.ProductID = some pa) (hb : r.products.get reqB.ProductID = some pb)
    (hqa : 0 < reqA.Quantity) (hba : reqA.Quantity ≤ pa.Balance)
    (hqb : 0 < reqB.Quantity) (hbb : reqB.Quantity ≤ pb.Balance) :
    ProductService.reserveLoop clock 0 [reqA, reqB] r [] =
      ([{ Success := true, ProductID := reqA.ProductID,
          NewBalance := pa.Balance - reqA.Quantity },
        { Success := true, ProductID := reqB.ProductID,
          NewBalance := pb.Balance - reqB.Quantity }],
       (r.mutate reqA.ProductID
         { pa with Balance := pa.Balance - reqA.Quantity, UpdatedAt := clock 0 }).mutate
         reqB.ProductID
         { pb with Balance := pb.Balance - reqB.Quantity, UpdatedAt := clock 1 }) := by
  have h1 := reserveOne_ok r reqA (clock 0) pa hwf ha hqa hba
  have hida : pa.ID = reqA.ProductID := ProductMemRepository.WF_get r _ pa hwf ha
  have hwf1 := ProductMemRepository.WF_mutate r reqA.ProductID
    { pa with Balance := pa.Balance - reqA.Quantity, UpdatedAt := clock 0 } hwf hida
  have hgetB : (r.mutate reqA.ProductID
      { pa with Balance := pa.Balance - reqA.Quantity, UpdatedAt := clock 0 }).products.get
        reqB.ProductID = some pb := by
    simp only [ProductMemRepository.mutate]
    rw [GoMap.get_set_ne _ _ _ _ (Ne.symm hne)]
    exact hb
  have h2 := reserveOne_ok _ reqB (clock 1) pb hwf1 hgetB hqb hbb
  simp only [ProductService.reserveLoop, h1, h2]
  rfl

theorem FindByID_eq_ok_iff (r : ProductMemRepository) (id : String) (p : Product) :
    r.FindByID id = .ok p ↔ r.products.get id = some p := by
  unfold ProductMemRepository.FindByID
  cases h : r.products.get id with
  | none => simp
  | some v => simp

end Stock

namespace Billing

/-- C13: with the client replaced by a direct call of the stock service that never
fails in transport, on a stock repository whose products are stored under their IDs:
for a stored open invoice with the two line items `(A, qa)` and `(B, qb)` on
distinct products, where the balance of `A` covers `qa > 0` and the balance of `B`
is 0, `PrintInvoice` fails with the reservation error that names `B`, the balance
of `A` has gone down by `qa`, `B` is as it was, with balance 0, and the invoice is
stored as before, still open. -/
theorem C13_partial_commit (route : String → ProductRoute) (clock : Nat → Time)
    (s : ServiceState Stock.ProductMemRepository)
    (id : String) (inv : Invoice) (now : Time) (itemA itemB : InvoiceItem)
    (pa pb : Stock.Product)
    (hwf : s.remote.WF)
    (hf : s.repo.FindByID id = .ok inv) (hst : inv.Status = StatusOpen)
    (hitems : inv.Items = [itemA, itemB]) (hne : itemA.ProductID ≠ itemB.ProductID)
    (ha : s.remote.FindByID itemA.ProductID = .ok pa)
    (hb : s.remote.FindByID itemB.ProductID = .ok pb)
    (hqa : 0 < itemA.Quantity) (hba : itemA.Quantity ≤ pa.Balance) (hb0 : pb.Balance = 0) :
    (InvoiceService.PrintInvoice (directClient route clock) s id now).1 =
      .error (.wrapf "erro ao reservar produtos: "
        (.errorf ("falha ao reservar produto " ++ itemB.ProductID ++ ": " ++
          (if itemB.Quantity ≤ 0 then "quantidade inválida" else "saldo insuficiente")))) ∧
    (∃ pa', (InvoiceService.PrintInvoice (directClient route clock) s id now).2.remote.FindByID
        itemA.ProductID = .ok pa' ∧
      pa'.Balance = pa.Balance - itemA.Quantity) ∧
    (InvoiceService.PrintInvoice (directClient route clock) s id now).2.remote.FindByID
      itemB.ProductID = .ok pb ∧
    pb.Balance = 0 ∧
    (InvoiceService.PrintInvoice (directClient route clock) s id now).2.repo = s.repo ∧
    (InvoiceService.PrintInvoice (directClient route clock) s id now).2.repo.FindByID id = .ok inv ∧
    inv.Status = StatusOpen := by
  have hinv := (InvoiceMemRepository.FindByID_eq_ok _ _ _).mp hf
  have hga := (Stock.FindByID_eq_ok_iff _ _ _).mp ha
  have hgb := (Stock.FindByID_eq_ok_iff _ _ _).mp hb
  have hden : ¬ (0 < itemB.Quantity ∧ itemB.Quantity ≤ pb.Balance) := by
    rw [hb0]
    omega
  have hloop := Stock.reserveLoop_pair_denied clock s.remote
    { ProductID := itemA.ProductID, Quantity := itemA.Quantity }
    { ProductID := itemB.ProductID, Quantity := itemB.Quantity } pa pb hwf hne hga hgb hqa hba hden
  have hreserve : (directClient route clock).ReserveProducts inv.Items s.remote =
      (some (.errorf ("falha ao reservar produto " ++ itemB.ProductID ++ ": " ++
          (if itemB.Quantity ≤ 0 then "quantidade inválida" else "saldo insuficiente"))),
        s.remote.mutate itemA.ProductID
          { pa with Balance := pa.Balance - itemA.Quantity, UpdatedAt := clock 0 }) := by
    have htr : toRequests inv.Items =
        [{ ProductID := itemA.ProductID, Quantity := itemA.Quantity },
         { ProductID := itemB.ProductID, Quantity := itemB.Quantity }] := by
      rw [hitems]
      rfl
    show (checkResponses
        (Stock.ProductService.ReserveMultipleProducts s.remote (toRequests inv.Items) clock).1.1,
      (Stock.ProductService.ReserveMultipleProducts s.remote (toRequests inv.Items) clock).2) = _
    unfold Stock.ProductService.ReserveMultipleProducts
    rw [htr, hloop]
    by_cases hq : itemB.Quantity ≤ 0
    · simp [checkResponses, hq, Stock.DomainError.Error]
    · simp [checkResponses, hq, Stock.DomainError.Error]
  have hres : ((directClient route clock).ReserveProducts inv.Items s.remote).1 =
      some (.errorf ("falha ao reservar produto " ++ itemB.ProductID ++ ": " ++
          (if itemB.Quantity ≤ 0 then "quantidade inválida" else "saldo insuficiente"))) := by
    rw [hreserve]
  rw [PrintInvoice_reservation_error (directClient route clock) s id inv now _ hinv hst hres, hreserve]
  refine ⟨rfl, ⟨_, Stock.ProductMemRepository.FindByID_mutate_self _ _ _, rfl⟩, ?_, hb0, rfl, hf,
    hst⟩
  simp only [Stock.ProductMemRepository.FindByID, Stock.ProductMemRepository.mutate]
  rw [GoMap.get_set_ne _ _ _ _ (Ne.symm hne), hgb]

/-- C13 on `pairState`: product `a` has balance 5 and product `b` balance 0, the
invoice asks 2 of `a` and 1 of `b`; closing fails, `a` is left with 3 and the
invoice open. -/
theorem C13_partial_commit_witness :
    (InvoiceService.PrintInvoice (directClient sampleRoute sampleClock) pairState "inv-4" 50).1 =
      .error (.wrapf "erro ao reservar produtos: "
        (.errorf "falha ao reservar produto b: saldo insuficiente")) ∧
    (∃ pa', (InvoiceService.PrintInvoice (directClient sampleRoute sampleClock) pairState "inv-4"
        50).2.remote.FindByID "a" = .ok pa' ∧
      pa'.Balance = 5 - 2) ∧
    (InvoiceService.PrintInvoice (directClient sampleRoute sampleClock) pairState "inv-4" 50).2.repo.FindByID
      "inv-4" = .ok samplePairInvoice :=
  ⟨(C13_partial_commit sampleRoute sampleClock pairState "inv-4" samplePairInvoice 50
      { ProductID := "a", ProductCode := "A", Description := "first", Quantity := 2 }
      { ProductID := "b", ProductCode := "B", Description := "second", Quantity := 1 }
      ⟨"a", "A", "first", 5, 0, 0⟩ ⟨"b", "B", "second", 0, 0, 0⟩
      (by decide) rfl rfl rfl (by decide) rfl rfl (by decide) (by decide) rfl).1,
    (C13_partial_commit sampleRoute sampleClock pairState "inv-4" samplePairInvoice 50
      { ProductID := "a", ProductCode := "A", Description := "first", Quantity := 2 }
      { ProductID := "b", ProductCode := "B", Description := "second", Quantity := 1 }
      ⟨"a", "A", "first", 5, 0, 0⟩ ⟨"b", "B", "second", 0, 0, 0⟩
      (by decide) rfl rfl rfl (by decide) rfl rfl (by decide) (by decide) rfl).2.1,
    (C13_partial_commit sampleRoute sampleClock pairState "inv-4" samplePairInvoice 50
      { ProductID := "a", ProductCode := "A", Description := "first", Quantity := 2 }
      { ProductID := "b", ProductCode := "B", Description := "second", Quantity := 1 }
      ⟨"a", "A", "first", 5, 0, 0⟩ ⟨"b", "B", "second", 0, 0, 0⟩
      (by decide) rfl rfl rfl (by decide) rfl rfl (by decide) (by decide) rfl).2.2.2.2.2.1⟩

end Billing

namespace Billing

theorem toRequests_pair (itemA itemB : InvoiceItem) :
    toRequests [itemA, itemB] =
      [{ ProductID := itemA.ProductID, Quantity := itemA.Quantity },
       { ProductID := itemB.ProductID, Quantity := itemB.Quantity }] := rfl

/-- The reservation of two items on distinct stored products through the direct
client, the first covered by its balance and the second denied for its balance. -/
theorem ReserveProducts_pair_denied (route : String → ProductRoute) (clock : Nat → Time)
    (r : Stock.ProductMemRepository)
    (itemA itemB : InvoiceItem) (pa pb : Stock.Product) (hwf : r.WF)
    (hne : itemA.ProductID ≠ itemB.ProductID)
    (ha : r.products.get itemA.ProductID = some pa) (hb : r.products.get itemB.ProductID = some pb)
    (hqa : 0 < itemA.Quantity) (hba : itemA.Quantity ≤ pa.Balance)
    (hqb : 0 < itemB.Quantity) (hlow : pb.Balance < itemB.Quantity) :
    (directClient route clock).ReserveProducts [itemA, itemB] r =
      (some (.errorf ("falha ao reservar produto " ++ itemB.ProductID ++ ": " ++
          "saldo insuficiente")),
        r.mutate itemA.ProductID
          { pa with Balance := pa.Balance - itemA.Quantity, UpdatedAt := clock 0 }) := by
  have hden : ¬ (0 < itemB.Quantity ∧ itemB.Quantity ≤ pb.Balance) := by omega
  have hloop := Stock.reserveLoop_pair_denied clock r
    { ProductID := itemA.ProductID, Quantity := itemA.Quantity }
    { ProductID := itemB.ProductID, Quantity := itemB.Quantity } pa pb hwf hne ha hb hqa hba hden
  have hq : ¬ itemB.Quantity ≤ 0 := not_le.mpr hqb
  show (checkResponses
      (Stock.ProductService.ReserveMultipleProducts r (toRequests [itemA, itemB]) clock).1.1,
    (Stock.ProductService.ReserveMultipleProducts r (toRequests [itemA, itemB]) clock).2) = _
  unfold Stock.ProductService.ReserveMultipleProducts
  rw [toRequests_pair, hloop]
  simp [checkResponses, hq, Stock.DomainError.Error]

/-- The reservation of two items on distinct stored products through the direct
client, both covered by their balances. -/
theorem ReserveProducts_pair_ok (route : String → ProductRoute) (clock : Nat → Time)
    (r : Stock.ProductMemRepository)
    (itemA itemB : InvoiceItem) (pa pb : Stock.Product) (hwf : r.WF)
    (hne : itemA.ProductID ≠ itemB.ProductID)
    (ha : r.products.get itemA.ProductID = some pa) (hb : r.products.get itemB.ProductID = some pb)
    (hqa : 0 < itemA.Quantity) (hba : itemA.Quantity ≤ pa.Balance)
    (hqb : 0 < itemB.Quantity) (hbb : itemB.Quantity ≤ pb.Balance) :
    (directClient route clock).ReserveProducts [itemA, itemB] r =
      (none,
        (r.mutate itemA.ProductID
          { pa with Balance := pa.Balance - itemA.Quantity, UpdatedAt := clock 0 }).mutate
          itemB.ProductID
          { pb with Balance := pb.Balance - itemB.Quantity, UpdatedAt := clock 1 }) := by
  have hloop := Stock.reserveLoop_pair_ok clock r
    { ProductID := itemA.ProductID, Quantity := itemA.Quantity }
    { ProductID := itemB.ProductID, Quantity := itemB.Quantity } pa pb hwf hne ha hb hqa hba hqb hbb
  show (checkResponses
      (Stock.ProductService.ReserveMultipleProducts r (toRequests [itemA, itemB]) clock).1.1,
    (Stock.ProductService.ReserveMultipleProducts r (toRequests [itemA, itemB]) clock).2) = _
  unfold Stock.ProductService.ReserveMultipleProducts
  rw [toRequests_pair, hloop]
  simp [checkResponses]

/-- The quantities of an invoice of two items that passes `Validate` are positive. -/
theorem Validate_pair (inv : Invoice) (itemA itemB : InvoiceItem)
    (hval : inv.Validate = none) (hitems : inv.Items = [itemA, itemB]) :
    0 < itemA.Quantity ∧ 0 < itemB.Quantity := by
  unfold Invoice.Validate at hval
  rw [hitems] at hval
  by_cases hn : inv.Number ≤ 0
  · simp [hn] at hval
  · simp only [hn, if_false, List.length_cons, List.length_nil] at hval
    by_cases ha : itemA.ProductID = "" ∨ itemA.Quantity ≤ 0
    · simp [validateItems, ha] at hval
    · by_cases hb : itemB.ProductID = "" ∨ itemB.Quantity ≤ 0
      · simp [validateItems, ha, hb] at hval
      · simp only [not_or, not_le] at ha hb
        exact ⟨ha.2, hb.2⟩

/-- C14: with the client replaced by a direct call of the stock service that never
fails in transport, on stock repositories whose products are stored under their
IDs: for an open invoice stored under its ID that passes `Validate` (as every
invoice that `CreateInvoice` stores does), with the two line items `(A, qa)` and
`(B, qb)` on distinct products, where the balance of `A` is at least `2 * qa` and
the balance of `B` is below `qb`, a first `PrintInvoice` fails; and when the stock
is then changed so that `A` is as the first call left it and the balance of `B` is
at least `qb`, a second `PrintInvoice` returns the invoice closed and leaves `A`
with its initial balance less `2 * qa`. -/
theorem C14_retry_double_debit (route : String → ProductRoute) (clock : Nat → Time)
    (s : ServiceState Stock.ProductMemRepository) (id : String) (inv : Invoice)
    (now1 now2 : Time) (itemA itemB : InvoiceItem) (pa pb : Stock.Product)
    (hwf : s.remote.WF)
    (hf : s.repo.FindByID id = .ok inv) (hid : inv.ID = id) (hst : inv.Status = StatusOpen)
    (hval : inv.Validate = none)
    (hitems : inv.Items = [itemA, itemB]) (hne : itemA.ProductID ≠ itemB.ProductID)
    (ha : s.remote.FindByID itemA.ProductID = .ok pa)
    (hb : s.remote.FindByID itemB.ProductID = .ok pb)
    (h2 : 2 * itemA.Quantity ≤ pa.Balance) (hlow : pb.Balance < itemB.Quantity) :
    (∃ err, (InvoiceService.PrintInvoice (directClient route clock) s id now1).1 = .error err) ∧
    (∃ pa1, (InvoiceService.PrintInvoice (directClient route clock) s id now1).2.remote.FindByID
        itemA.ProductID = .ok pa1 ∧ pa1.Balance = pa.Balance - itemA.Quantity) ∧
    ∀ (r2 : Stock.ProductMemRepository) (pb2 : Stock.Product), r2.WF →
      r2.products.get itemA.ProductID =
        (InvoiceService.PrintInvoice (directClient route clock) s id now1).2.remote.products.get
          itemA.ProductID →
      r2.FindByID itemB.ProductID = .ok pb2 → itemB.Quantity ≤ pb2.Balance →
        ∃ inv' pa2,
          (InvoiceService.PrintInvoice (directClient route clock)
            { (InvoiceService.PrintInvoice (directClient route clock) s id now1).2 with remote := r2 }
            id now2).1 = .ok inv' ∧
          inv'.Status = StatusClosed ∧
          (InvoiceService.PrintInvoice (directClient route clock)
            { (InvoiceService.PrintInvoice (directClient route clock) s id now1).2 with remote := r2 }
            id now2).2.remote.FindByID itemA.ProductID = .ok pa2 ∧
          pa2.Balance = pa.Balance - 2 * itemA.Quantity := by
  have hinv := (InvoiceMemRepository.FindByID_eq_ok _ _ _).mp hf
  have hga := (Stock.FindByID_eq_ok_iff _ _ _).mp ha
  have hgb := (Stock.FindByID_eq_ok_iff _ _ _).mp hb
  obtain ⟨hqa, hqb⟩ := Validate_pair inv itemA itemB hval hitems
  have hba : itemA.Quantity ≤ pa.Balance := by omega
  have hreserve : (directClient route clock).ReserveProducts inv.Items s.remote =
      (some (.errorf ("falha ao reservar produto " ++ itemB.ProductID ++ ": " ++
          "saldo insuficiente")),
        s.remote.mutate itemA.ProductID
          { pa with Balance := pa.Balance - itemA.Quantity, UpdatedAt := clock 0 }) := by
    rw [hitems]
    exact ReserveProducts_pair_denied route clock s.remote itemA itemB pa pb hwf hne hga hgb hqa hba
      hqb hlow
  have hres : ((directClient route clock).ReserveProducts inv.Items s.remote).1 =
      some (.errorf ("falha ao reservar produto " ++ itemB.ProductID ++ ": " ++
          "saldo insuficiente")) := by
    rw [hreserve]
  rw [PrintInvoice_reservation_error (directClient route clock) s id inv now1 _ hinv hst hres, hreserve]
  refine ⟨⟨_, rfl⟩, ⟨_, Stock.ProductMemRepository.FindByID_mutate_self _ _ _, rfl⟩, ?_⟩
  intro r2 pb2 hwf2 hkeep hb2 hbb
  simp only [Stock.ProductMemRepository.mutate, GoMap.get_set_self] at hkeep
  have hgb2 := (Stock.FindByID_eq_ok_iff _ _ _).mp hb2
  have hba2 : itemA.Quantity ≤
      ({ pa with Balance := pa.Balance - itemA.Quantity, UpdatedAt := clock 0 } :
        Stock.Product).Balance := by
    show itemA.Quantity ≤ pa.Balance - itemA.Quantity
    omega
  have hreserve2 : (directClient route clock).ReserveProducts inv.Items r2 =
      (none,
        (r2.mutate itemA.ProductID
          { ({ pa with Balance := pa.Balance - itemA.Quantity, UpdatedAt := clock 0 } :
              Stock.Product) with
            Balance := pa.Balance - itemA.Quantity - itemA.Quantity, UpdatedAt := clock 0 }).mutate
          itemB.ProductID
          { pb2 with Balance := pb2.Balance - itemB.Quantity, UpdatedAt := clock 1 }) := by
    rw [hitems]
    exact ReserveProducts_pair_ok route clock r2 itemA itemB _ pb2 hwf2 hne hkeep hgb2 hqa hba2 hqb hbb
  have hnone : ((directClient route clock).ReserveProducts inv.Items r2).1 = none := by
    rw [hreserve2]
  have hsecond := PrintInvoice_ok (directClient route clock)
    { repo := s.repo, remote := r2, calls := s.calls ++ [ClientCall.ReserveProducts inv.Items] }
    id inv now2 hinv hid hst hnone
  show ∃ inv' pa2,
    (InvoiceService.PrintInvoice (directClient route clock)
      { repo := s.repo, remote := r2, calls := s.calls ++ [ClientCall.ReserveProducts inv.Items] }
      id now2).1 = .ok inv' ∧
    inv'.Status = StatusClosed ∧
    (InvoiceService.PrintInvoice (directClient route clock)
      { repo := s.repo, remote := r2, calls := s.calls ++ [ClientCall.ReserveProducts inv.Items] }
      id now2).2.remote.FindByID itemA.ProductID = .ok pa2 ∧
    pa2.Balance = pa.Balance - 2 * itemA.Quantity
  rw [hsecond, hreserve2]
  refine ⟨_, ⟨pa.ID, pa.Code, pa.Description, pa.Balance - itemA.Quantity - itemA.Quantity,
    pa.CreatedAt, clock 0⟩, rfl, rfl, ?_, ?_⟩
  · simp only [Stock.ProductMemRepository.FindByID, Stock.ProductMemRepository.mutate]
    rw [GoMap.get_set_ne _ _ _ _ hne, GoMap.get_set_self]
  · show pa.Balance - itemA.Quantity - itemA.Quantity = pa.Balance - 2 * itemA.Quantity
    omega

/-- C14 on `pairState`: product `a` has balance 5, the invoice asks 2 of `a` and 1
of `b`, which has none.  The first close fails; the balance of `b` is then set to 3
by `UpdateProduct`; the second close succeeds and leaves `a` with `5 - 2 * 2`. -/
theorem C14_retry_double_debit_witness :
    (InvoiceService.PrintInvoice (directClient sampleRoute sampleClock) pairState "inv-4" 50).1 =
      .error (.wrapf "erro ao reservar produtos: "
        (.errorf "falha ao reservar produto b: saldo insuficiente")) ∧
    ∃ inv' pa2,
      (InvoiceService.PrintInvoice (directClient sampleRoute sampleClock)
        { (InvoiceService.PrintInvoice (directClient sampleRoute sampleClock) pairState "inv-4" 50).2 with
          remote := (Stock.ProductService.UpdateProduct
            (InvoiceService.PrintInvoice (directClient sampleRoute sampleClock) pairState "inv-4"
              50).2.remote "b" "B" "second" 3 60).2 }
        "inv-4" 70).1 = .ok inv' ∧
      inv'.Status = StatusClosed ∧
      (InvoiceService.PrintInvoice (directClient sampleRoute sampleClock)
        { (InvoiceService.PrintInvoice (directClient sampleRoute sampleClock) pairState "inv-4" 50).2 with
          remote := (Stock.ProductService.UpdateProduct
            (InvoiceService.PrintInvoice (directClient sampleRoute sampleClock) pairState "inv-4"
              50).2.remote "b" "B" "second" 3 60).2 }
        "inv-4" 70).2.remote.FindByID "a" = .ok pa2 ∧
      pa2.Balance = 5 - 2 * 2 :=
  ⟨rfl,
    (C14_retry_double_debit sampleRoute sampleClock pairState "inv-4" samplePairInvoice 50 70
      { ProductID := "a", ProductCode := "A", Description := "first", Quantity := 2 }
      { ProductID := "b", ProductCode := "B", Description := "second", Quantity := 1 }
      ⟨"a", "A", "first", 5, 0, 0⟩ ⟨"b", "B", "second", 0, 0, 0⟩
      (by decide) rfl rfl rfl rfl rfl (by decide) rfl rfl (by decide) (by decide)).2.2
      (Stock.ProductService.UpdateProduct
        (InvoiceService.PrintInvoice (directClient sampleRoute sampleClock) pairState "inv-4"
          50).2.remote "b" "B" "second" 3 60).2
      ⟨"b", "B", "second", 3, 0, 60⟩ (by decide) rfl rfl (by decide)⟩

end Billing

/-! ### The client of the stock service -/

namespace Billing

theorem checkResponses_eq_none (resps : List Stock.ReservationResponse) :
    checkResponses resps = none ↔ ∀ resp ∈ resps, resp.Success = true := by
  constructor
  · intro h
    induction resps with
    | nil => intro resp hresp; simp at hresp
    | cons res rest ih =>
      by_cases hs : res.Success = true
      · simp only [checkResponses, hs, Bool.not_true, Bool.false_eq_true, if_false] at h
        intro resp hresp
        rcases List.mem_cons.mp hresp with h1 | h1
        · rw [h1]
          exact hs
        · exact ih h resp h1
      · simp [checkResponses, hs] at h
  · exact checkResponses_all_ok resps

/-- The direct client is the HTTP client over a working network. -/
theorem directClient_eq_client (route : String → ProductRoute) (clock : Nat → Time) :
    directClient route clock = StockHTTPClient.client (workingNet clock) (workingGetNet route) := by
  unfold directClient StockHTTPClient.client
  congr 1

/-- C17: when the exchange of a reservation came to a response of status 200 whose
body decodes as the list `responses`, `StockHTTPClient.ReserveProducts` returns an
error exactly when some response is not a success, and nil exactly when every
response is a success; and the error is the one made of the product ID and the
error message of the first response, in the order of the list, that is not a
success. -/
theorem C17_error_iff_failed_response (exchange : ReserveExchange)
    (responses : List Stock.ReservationResponse)
    (h : exchange = .response 200 (.ok responses)) :
    (StockHTTPClient.ReserveProducts exchange ≠ none ↔
      ∃ resp ∈ responses, resp.Success = false) ∧
    (StockHTTPClient.ReserveProducts exchange = none ↔
      ∀ resp ∈ responses, resp.Success = true) ∧
    (∀ pre res post, responses = pre ++ res :: post →
      (∀ x ∈ pre, x.Success = true) → res.Success = false →
        StockHTTPClient.ReserveProducts exchange =
          some (.errorf ("falha ao reservar produto " ++ res.ProductID ++ ": "
            ++ res.ErrorMessage))) := by
  subst h
  have hrp : StockHTTPClient.ReserveProducts (.response 200 (.ok responses)) =
      checkResponses responses := by
    simp [StockHTTPClient.ReserveProducts]
  rw [hrp]
  refine ⟨?_, checkResponses_eq_none responses, ?_⟩
  · rw [Ne, checkResponses_eq_none]
    constructor
    · intro hn
      by_contra hc
      apply hn
      intro resp hresp
      by_contra hs
      exact hc ⟨resp, hresp, by simpa using hs⟩
    · rintro ⟨resp, hresp, hs⟩ hall
      rw [hall resp hresp] at hs
      cases hs
  · intro pre res post hsplit hpre hres
    rw [hsplit]
    exact checkResponses_first_failure pre res post hpre hres

/-- C17 on the responses to `sampleBatch` on `sampleRepo`: the first response that
is not a success is the one for product `b`. -/
theorem C17_error_iff_failed_response_witness :
    StockHTTPClient.ReserveProducts
      (.response 200 (.ok (Stock.ProductService.ReserveMultipleProducts Stock.sampleRepo
        Stock.sampleBatch sampleClock).1.1)) =
      some (.errorf "falha ao reservar produto b: saldo insuficiente") ∧
    (StockHTTPClient.ReserveProducts
      (.response 200 (.ok (Stock.ProductService.ReserveMultipleProducts Stock.sampleRepo
        Stock.sampleBatch sampleClock).1.1)) ≠ none ↔
      ∃ resp ∈ (Stock.ProductService.ReserveMultipleProducts Stock.sampleRepo
        Stock.sampleBatch sampleClock).1.1, resp.Success = false) :=
  ⟨rfl,
    (C17_error_iff_failed_response
      (.response 200 (.ok (Stock.ProductService.ReserveMultipleProducts Stock.sampleRepo
        Stock.sampleBatch sampleClock).1.1))
      (Stock.ProductService.ReserveMultipleProducts Stock.sampleRepo
        Stock.sampleBatch sampleClock).1.1 rfl).1⟩

end Billing

/-! ### Transport failures and denials -/

namespace Billing

/-- The response of the handler `PrintInvoice` for a stored open invoice whose
reservation returned an error, whatever the error. -/
theorem Handler_PrintInvoice_reservation_error {σ : Type} (c : StockClient σ)
    (s : ServiceState σ) (id : String) (inv : Invoice) (now : Time) (err : DomainError)
    (hinv : s.repo.invoices.get id = some inv) (hst : inv.Status = StatusOpen)
    (hres : (c.ReserveProducts inv.Items s.remote).1 = some err) :
    (Handler.PrintInvoice c s id now).1 =
      respondError 503 "Falha na comunicação com o serviço de estoque"
        "Não foi possível atualizar o estoque. Tente novamente." := by
  unfold Handler.PrintInvoice
  rw [PrintInvoice_reservation_error c s id inv now err hinv hst hres]

/-- C18, at the input where the code breaks it: the open invoice `inv-2` of
`sampleState` asks 9 units of product `a`, which has 5.  When the network is broken
(a transport failure) and when the stock service answers 200 and denies the item,
`InvoiceService.PrintInvoice` returns errors of different texts, and the text of the
denial names the product and the reason.  The handler `PrintInvoice` sends neither
text: in both cases its `default` branch answers the same status 503 with the same
two fixed texts, which speak of a failure of communication and name no product. -/
theorem C18_handler_answers_denial_as_transport_failure :
    transportFailure
      (brokenNet (.errorf "connection refused") (toRequests sampleLargeInvoice.Items)
        sampleState.remote).1 ∧
    (workingNet sampleClock (toRequests sampleLargeInvoice.Items) sampleState.remote).1 =
      .response 200 (.ok [{ Success := false, ProductID := "a", NewBalance := 5,
                            ErrorMessage := "saldo insuficiente" }]) ∧
    ((InvoiceService.PrintInvoice
      (StockHTTPClient.client (brokenNet (.errorf "connection refused"))
        (workingGetNet sampleRoute))
      sampleState "inv-2" 50).1.mapError DomainError.Error) =
      .error "erro ao reservar produtos: erro ao comunicar com Stock Service: connection refused" ∧
    ((InvoiceService.PrintInvoice
      (StockHTTPClient.client (workingNet sampleClock) (workingGetNet sampleRoute))
      sampleState "inv-2" 50).1.mapError DomainError.Error) =
      .error "erro ao reservar produtos: falha ao reservar produto a: saldo insuficiente" ∧
    (Handler.PrintInvoice
      (StockHTTPClient.client (brokenNet (.errorf "connection refused"))
        (workingGetNet sampleRoute))
      sampleState "inv-2" 50).1 =
    (Handler.PrintInvoice
      (StockHTTPClient.client (workingNet sampleClock) (workingGetNet sampleRoute))
      sampleState "inv-2" 50).1 ∧
    (Handler.PrintInvoice
      (StockHTTPClient.client (workingNet sampleClock) (workingGetNet sampleRoute))
      sampleState "inv-2" 50).1 =
      { status := 503,
        body := .error { Error := "Falha na comunicação com o serviço de estoque",
                         Message := "Não foi possível atualizar o estoque. Tente novamente." } } :=
  ⟨trivial, rfl, rfl, rfl, rfl, rfl⟩

end Billing

/-! ### Updating a product -/

namespace Stock

/-- C15, at the input where the code breaks it: from the empty store,
`CreateProduct` stores product `a` with balance 5; `UpdateProduct` of `a` with
balance -5 returns `ErrInvalidProduct`, and the product that `GetProduct` then
returns, the stored one, has balance -5: the fields were assigned through the
pointer to the stored product before `Validate` ran. -/
theorem C15_failed_update_stores_negative_balance :
    (ProductService.CreateProduct NewProductMemRepository "A" "first" 5 "a" 0 0).1 =
      .ok ⟨"a", "A", "first", 5, 0, 0⟩ ∧
    (ProductService.UpdateProduct
      (ProductService.CreateProduct NewProductMemRepository "A" "first" 5 "a" 0 0).2
      "a" "A" "first" (-5) 9).1 = .error .ErrInvalidProduct ∧
    ProductService.GetProduct
      (ProductService.UpdateProduct
        (ProductService.CreateProduct NewProductMemRepository "A" "first" 5 "a" 0 0).2
        "a" "A" "first" (-5) 9).2 "a" = .ok ⟨"a", "A", "first", -5, 0, 9⟩ ∧
    ¬ (0 ≤ (⟨"a", "A", "first", -5, 0, 9⟩ : Product).Balance) :=
  ⟨rfl, rfl, rfl, by decide⟩

/-- C16, at the inputs where the code breaks it.  From the empty store, products
`a` with code `A` and `b` with code `B` are created.  `UpdateProduct` of `a` with
the code `B` returns no error, not `ErrDuplicateCode`, and the store then holds two
products with the code `B`.  And after `UpdateProduct` of `a` with the free code
`C`, `CreateProduct` with the code `C` returns no error, and the store holds two
products with the code `C`.  In `Update`, `existing` is the object that
`UpdateProduct` has already changed, so the codes never differ and the index of the
codes is neither checked nor kept. -/
theorem C16_update_duplicates_code :
    (ProductService.UpdateProduct
      (ProductService.CreateProduct
        (ProductService.CreateProduct NewProductMemRepository "A" "first" 5 "a" 0 0).2
        "B" "second" 0 "b" 0 0).2
      "a" "B" "first" 5 9).1 = .ok ⟨"a", "B", "first", 5, 0, 9⟩ ∧
    (ProductService.UpdateProduct
      (ProductService.CreateProduct
        (ProductService.CreateProduct NewProductMemRepository "A" "first" 5 "a" 0 0).2
        "B" "second" 0 "b" 0 0).2
      "a" "B" "first" 5 9).2.products =
      [("a", ⟨"a", "B", "first", 5, 0, 9⟩), ("b", ⟨"b", "B", "second", 0, 0, 0⟩)] ∧
    (ProductService.UpdateProduct
      (ProductService.CreateProduct
        (ProductService.CreateProduct NewProductMemRepository "A" "first" 5 "a" 0 0).2
        "B" "second" 0 "b" 0 0).2
      "a" "B" "first" 5 9).2.codes = [("A", "a"), ("B", "b")] ∧
    (ProductService.CreateProduct
      (ProductService.UpdateProduct
        (ProductService.CreateProduct NewProductMemRepository "A" "first" 5 "a" 0 0).2
        "a" "C" "first" 5 9).2
      "C" "third" 1 "c" 10 10).1 = .ok ⟨"c", "C", "third", 1, 10, 10⟩ ∧
    (ProductService.CreateProduct
      (ProductService.UpdateProduct
        (ProductService.CreateProduct NewProductMemRepository "A" "first" 5 "a" 0 0).2
        "a" "C" "first" 5 9).2
      "C" "third" 1 "c" 10 10).2.products =
      [("a", ⟨"a", "C", "first", 5, 0, 9⟩), ("c", ⟨"c", "C", "third", 1, 10, 10⟩)] :=
  ⟨rfl, rfl, rfl, rfl, rfl⟩

/-- C20, at the input where the code breaks it: on `sampleRepo`, `UpdateProduct` of
product `a` with an empty code, the description `changed` and the balance -1 returns
`ErrInvalidProduct`; the product that `GetProduct` returned before the call had the
code `A`, the description `first` and the balance 5, the one it returns after the
call has the code, the description and the balance of the failed call.  The index of
the codes is as it was. -/
theorem C20_failed_update_changes_product :
    ProductService.GetProduct sampleRepo "a" = .ok ⟨"a", "A", "first", 5, 0, 0⟩ ∧
    (ProductService.UpdateProduct sampleRepo "a" "" "changed" (-1) 9).1 =
      .error .ErrInvalidProduct ∧
    ProductService.GetProduct
      (ProductService.UpdateProduct sampleRepo "a" "" "changed" (-1) 9).2 "a" =
      .ok ⟨"a", "", "changed", -1, 0, 9⟩ ∧
    (ProductService.UpdateProduct sampleRepo "a" "" "changed" (-1) 9).2.codes =
      sampleRepo.codes :=
  ⟨rfl, rfl, rfl, rfl⟩

end Stock

/-! ### Concurrent reservations -/

namespace GoMap

theorem set_set {α : Type} (m : GoMap α) (k : String) (v w : α) :
    (m.set k v).set k w = m.set k w := by
  induction m with
  | nil => simp [set]
  | cons e rest ih =>
    obtain ⟨k0, u⟩ := e
    by_cases h : k0 = k
    · simp [set, h]
    · simp [set, h, ih]

end GoMap

namespace Stock

/-- A goroutine that takes its four steps with no other goroutine in between does
what `ReserveStock` does: the steps are the statements of the method. -/
theorem ReserveCall_alone (r : ProductMemRepository) (id : String) (q : Int) (now : Time) :
    (runSchedule [false, false, false, false]
      { first := { productID := id, quantity := q, now := now, point := .start },
        second := { productID := id, quantity := q, now := now, point := .start },
        repo := r }).first.point = .returned (ProductService.ReserveStock r id q now).1 ∧
    (runSchedule [false, false, false, false]
      { first := { productID := id, quantity := q, now := now, point := .start },
        second := { productID := id, quantity := q, now := now, point := .start },
        repo := r }).repo = (ProductService.ReserveStock r id q now).2 := by
  cases hg : r.products.get id with
  | none =>
    have hf : r.FindByID id = .error .ErrProductNotFound := by
      simp [ProductMemRepository.FindByID, hg]
    simp [runSchedule, ReserveCall.step, ProductService.ReserveStock, hf]
  | some p =>
    have hf : r.FindByID id = .ok p := by simp [ProductMemRepository.FindByID, hg]
    rcases le_or_lt q 0 with h0 | h0
    · simp [runSchedule, ReserveCall.step, ProductService.ReserveStock, hf, hg, h0,
        Reserve_invalid p q now h0, ProductMemRepository.mutate_same r id p hg]
    · have h0' : ¬ q ≤ 0 := not_le.mpr h0
      rcases le_or_lt q p.Balance with hb | hb
      · have hcan : p.CanReserve q = true := by simp [Product.CanReserve, hb, h0]
        simp only [runSchedule, ReserveCall.step, ProductService.ReserveStock, hf, hg, h0',
          if_false, hcan, Bool.not_true, Bool.false_eq_true, ProductMemRepository.mutate,
          GoMap.get_set_self, GoMap.set_set, Reserve_ok p q now h0 hb]
        exact ⟨trivial, trivial⟩
      · have hcan : p.CanReserve q = false := by
          simp [Product.CanReserve, not_le.mpr hb]
        simp [runSchedule, ReserveCall.step, ProductService.ReserveStock, hf, hg, h0', hcan,
          Reserve_insufficient p q now h0 hb, ProductMemRepository.mutate_same r id p hg]

/-- C19, at the input where the code breaks it: product `a` has balance 5 and two
goroutines run `ReserveStock` for 3 and for 4 units of it; each quantity is at most
the balance and the two together exceed it.  In the schedule where both goroutines
pass the checks of `Reserve` before either debits, both calls return no error and
the product is left with balance -2. -/
theorem C19_both_reservations_succeed :
    (3 : Int) ≤ 5 ∧ (4 : Int) ≤ 5 ∧ (3 : Int) + 4 > 5 ∧
    ProductService.GetProduct sampleRace.repo "a" = .ok ⟨"a", "A", "first", 5, 0, 0⟩ ∧
    (runSchedule racySchedule sampleRace).first.point = .returned none ∧
    (runSchedule racySchedule sampleRace).second.point = .returned none ∧
    ProductService.GetProduct (runSchedule racySchedule sampleRace).repo "a" =
      .ok ⟨"a", "A", "first", -2, 0, 2⟩ :=
  ⟨by decide, by decide, by decide, rfl, rfl, rfl, rfl⟩

end Stock

end Korp
